import Mathlib

/-!
# Verification of the gossyp tool/environment substrate and script pipeline

Shallow embedding, in Lean 4, of the parts of the `gossyp` repository that the
frozen claims C1..C10 are about.  Rust sources are translated definition by
definition:

* `src/src/basic/functional_tool.rs`      → `FnTool`, `FnTool.invokeJson`
* `src/src/algorithm/compare.rs`          → `compareValues` and friends
* `src/src/basic/dynamic_environment.rs`  → `DynMap`, `dynEnvGet`, `dynUndefine`
* `src/src/basic/combined_environment.rs` → `combinedListTools`
* `src/gossyp_lang/src/script/*.rs`       → binder and evaluator embeddings

JSON values (`serde_json::Value`) are modelled by the inductive `JValue`;
machine integers by `Nat`/`Int` with explicit 64-bit bounds where the source
checks them; `f64` payloads are modelled exactly by `ℚ` (the claims under
verification never exercise float rounding).  Fallible Rust code returns
`Except`, and Rust panics are modelled by `Option`/a dedicated `diverge`
result constructor.
-/

namespace Gossyp

/-- `serde_json::Number`: a 64-bit signed integer (`NegInt`, used for negative
values), a 64-bit unsigned integer (`PosInt`, used for non-negative values),
or a float.  The float payload is modelled exactly as a rational; the claims
never depend on `f64` rounding. -/
inductive JNum where
  | i (n : Int)
  | u (n : Nat)
  | f (q : ℚ)
  deriving DecidableEq, Repr

/-- Largest `i64` value. -/
def i64Max : Int := 2 ^ 63 - 1

/-- Smallest `i64` value. -/
def i64Min : Int := -(2 ^ 63)

/-- `serde_json::Number::as_i64`. -/
def JNum.asI64 : JNum → Option Int
  | .i n => some n
  | .u n => if (n : Int) ≤ i64Max then some n else none
  | .f _ => none

/-- `serde_json::Number::as_u64`. -/
def JNum.asU64 : JNum → Option Nat
  | .u n => some n
  | _ => none

/-- `serde_json::Number::as_f64`: always `Some`; integer-to-float conversion
is modelled exactly (rounding of huge integers is not modelled; no claim
depends on it). -/
def JNum.asF64 : JNum → Option ℚ
  | .i n => some n
  | .u n => some n
  | .f q => some q

/-- Building a number from an `i64` (what `json![x]` does for integers):
non-negative values are stored as `PosInt`, negative ones as `NegInt`. -/
def JNum.ofInt (n : Int) : JNum :=
  if 0 ≤ n then .u n.toNat else .i n

/-- `serde_json::Value`.  Objects are a key/value list in the map's iteration
order with unique keys. -/
inductive JValue where
  | null
  | bool (b : Bool)
  | num (n : JNum)
  | str (s : String)
  | arr (xs : List JValue)
  | obj (fields : List (String × JValue))

/-- Lexicographic three-way comparison of char lists; `Char` compares by code
point, so this agrees with Rust's byte-wise `Ord` on UTF-8 `String`s. -/
def charListCmp : List Char → List Char → Int
  | [], [] => 0
  | [], _ :: _ => -1
  | _ :: _, [] => 1
  | a :: as, b :: bs =>
    if a.toNat < b.toNat then -1
    else if b.toNat < a.toNat then 1
    else charListCmp as bs

/-- Three-way comparison of strings (Rust `String` `Ord`). -/
def strCmp (a b : String) : Int :=
  charListCmp a.data b.data

/-- Boolean `≤` view of `strCmp`, used to model `Vec::sort` on `Vec<String>`. -/
def strLeb (a b : String) : Bool :=
  !(0 < strCmp a b)

/-- `Vec::<String>::sort()`: a stable sort by the string ordering; modelled
by the standard library's stable merge sort. -/
def sortStrings (l : List String) : List String :=
  l.mergeSort strLeb

/-- `Vec::dedup()`: removes *consecutive* duplicates (which, after a sort,
removes all duplicates). -/
def dedupSorted : List String → List String
  | [] => []
  | [a] => [a]
  | a :: b :: t => if a = b then dedupSorted (b :: t) else a :: dedupSorted (b :: t)

/-- `CompareTool::compare_bool` (Rust `bool` ordering: `false < true`). -/
def compareBool (val : Bool) (right : JValue) : Int :=
  match right with
  | .arr _ => 1
  | .bool rightVal =>
    match val, rightVal with
    | false, true => -1
    | true, false => 1
    | _, _ => 0
  | .null => -1
  | .num _ => -1
  | .obj _ => -1
  | .str _ => -1

/-- `CompareTool::compare_null`. -/
def compareNull (right : JValue) : Int :=
  match right with
  | .arr _ => 1
  | .bool _ => 1
  | .null => 0
  | .num _ => -1
  | .obj _ => -1
  | .str _ => -1

/-- Three-way sign helper used to transcribe the `if a < b … else if a > b`
ladders of `compare.rs`. -/
def cmp3 (a b : Int) : Int :=
  if a < b then -1 else if b < a then 1 else 0

/-- Rational version of `cmp3`. -/
def cmp3q (a b : ℚ) : Int :=
  if a < b then -1 else if b < a then 1 else 0

/-- `CompareTool::compare_number`: a tuple `if let` ladder over `as_i64`,
then `as_u64`, then `as_f64`, defaulting to `0`. -/
def compareNumber (num : JNum) (right : JValue) : Int :=
  match right with
  | .arr _ => 1
  | .bool _ => 1
  | .null => 1
  | .num rightNum =>
    match num.asI64, rightNum.asI64 with
    | some l, some r => cmp3 l r
    | _, _ =>
      match num.asU64, rightNum.asU64 with
      | some l, some r => cmp3 l r
      | _, _ =>
        match num.asF64, rightNum.asF64 with
        | some l, some r => cmp3q l r
        | _, _ => 0
  | .obj _ => -1
  | .str _ => -1

/-- `CompareTool::compare_string`. -/
def compareString (s : String) (right : JValue) : Int :=
  match right with
  | .arr _ => 1
  | .bool _ => 1
  | .null => 1
  | .num _ => 1
  | .obj _ => 1
  | .str rightS => strCmp s rightS

/-! ## `src/src/algorithm/compare.rs` — the compare-values tool (claim C4)

A mutual translation of `CompareTool::compare_values` and its helpers.  The
type ordering rows of each `match right` arm are kept as in the source. -/

mutual

/-- `CompareTool::compare_values`. -/
def compareValues : JValue → JValue → Int
  | .arr xs, r => compareArray xs r
  | .bool v, r => compareBool v r
  | .null, r => compareNull r
  | .num n, r => compareNumber n r
  | .obj o, r => compareObject o r
  | .str s, r => compareString s r

/-- `CompareTool::compare_array`: lengths are compared first; only arrays of
equal length are compared element-wise. -/
def compareArray (arrayValues : List JValue) (right : JValue) : Int :=
  match right with
  | .arr rightArray =>
    if arrayValues.length < rightArray.length then -1
    else if rightArray.length < arrayValues.length then 1
    else compareElems arrayValues rightArray
  | .bool _ => -1
  | .null => -1
  | .num _ => -1
  | .obj _ => -1
  | .str _ => -1

/-- The `for index in 0..array_values.len()` loop of `compare_array`, on two
arrays of equal length: first non-zero element comparison wins. -/
def compareElems : List JValue → List JValue → Int
  | x :: xs, y :: ys =>
    let c := compareValues x y
    if c ≠ 0 then c else compareElems xs ys
  | _, _ => 0

/-- `CompareTool::compare_object`: key-count first, then per index the keys
are compared and, when equal, the values stored under that key. -/
def compareObject (obj : List (String × JValue)) (right : JValue) : Int :=
  match right with
  | .arr _ => 1
  | .bool _ => 1
  | .null => 1
  | .num _ => 1
  | .obj rightObj =>
    if obj.length < rightObj.length then -1
    else if rightObj.length < obj.length then 1
    else compareFieldLists obj rightObj
  | .str _ => -1

/-- The key/value loop of `compare_object` on equal-length key lists. -/
def compareFieldLists : List (String × JValue) → List (String × JValue) → Int
  | (ka, va) :: xs, (kb, vb) :: ys =>
    if strCmp ka kb < 0 then -1
    else if 0 < strCmp ka kb then 1
    else
      let c := compareValues va vb
      if c ≠ 0 then c else compareFieldLists xs ys
  | _, _ => 0

end

/-- `CompareTool::invoke_json` (the `_environment` parameter is unused in the
source and therefore dropped). -/
def compareToolInvokeJson (input : JValue) : Except JValue JValue :=
  match input with
  | .arr values =>
    match values with
    | [a, b] => .ok (.num (.ofInt (compareValues a b)))
    | _ => .error (.obj [("error", .str "Compare must be called with two values")])
  | _ => .error (.obj [("error", .str "Compare must be called with an array")])

/-- From the words of claim C4 / spec §4.9: lexicographic element-wise
comparison of two arrays, recursively using the value ordering, with the
lengths used only as a tiebreak when all compared elements are equal. -/
def lexCompareSpec : List JValue → List JValue → Int
  | [], [] => 0
  | [], _ :: _ => -1
  | _ :: _, [] => 1
  | x :: xs, y :: ys =>
    let c := compareValues x y
    if c ≠ 0 then c else lexCompareSpec xs ys

/-! ## `src/src/basic/functional_tool.rs` — tools from functions (claim C1)

`FnTool` is generic over the environment type (the `&Environment` trait
object) and over the Rust input/output/error types together with their serde
codecs; a codec failure carries its `description()` string. -/

/-- A tool made from a function (`FnTool` in `functional_tool.rs`), together
with the serde codecs the `invoke_json` implementation uses:
`decodeInput` models `from_value::<TIn>`, `encodeOutput`/`encodeError` model
`to_value` on the output and error types. -/
structure FnTool (Env TIn TOut TErr : Type) where
  decodeInput : JValue → Except String TIn
  encodeOutput : TOut → Except String JValue
  encodeError : TErr → Except String JValue
  function : TIn → Env → Except TErr TOut

/-- `FnTool::invoke_json`, lines 40–86 of `functional_tool.rs`.  Note the
`Err(erm)` arm: when the function's error encodes successfully the code
returns `Ok(final_value)` (line 67), not `Err(final_value)`. -/
def FnTool.invokeJson (t : FnTool Env TIn TOut TErr) (input : JValue) (environment : Env) :
    Except JValue JValue :=
  match t.decodeInput input with
  | .ok inputDecoded =>
    match t.function inputDecoded environment with
    | .ok res =>
      match t.encodeOutput res with
      | .ok finalValue => .ok finalValue
      | .error erm =>
        .error (.obj [("error", .str "JSON encode failed"), ("description", .str erm)])
    | .error erm =>
      match t.encodeError erm with
      | .ok finalValue => .ok finalValue
      | .error erm2 =>
        .error (.obj [("error", .str "Error encode failed"), ("description", .str erm2)])
  | .error inputError =>
    .error (.obj [("error", .str "JSON input decode failed"), ("description", .str inputError)])

/-- The tool `make_tool(|_: Value| -> Result<Value, Value> { Err(json!["boom"]) })`:
`from_value::<Value>` and `to_value` on `Value` are the identity and never
fail, and the wrapped fallible function always returns an error. -/
def alwaysErrTool : FnTool Unit JValue JValue JValue :=
  { decodeInput := .ok
    encodeOutput := .ok
    encodeError := .ok
    function := fun _ _ => .error (.str "boom") }

/-- C1.  When a tool built by the fallible or dynamic factory runs a function
that returns `Err(e)` and `e` serialises successfully to the value `v`,
`FnTool::invoke_json` delivers `v` on the **Ok** channel (line 67 of
`functional_tool.rs` reads `Ok(final_value)`), not on the Err channel the
claim and the spec demand.  This theorem evaluates the code on that path. -/
theorem c1_fn_tool_delivers_error_as_ok {Env TIn TOut TErr : Type}
    (t : FnTool Env TIn TOut TErr) (input : JValue) (environment : Env)
    (x : TIn) (e : TErr) (v : JValue)
    (hdec : t.decodeInput input = .ok x)
    (hfn : t.function x environment = .error e)
    (henc : t.encodeError e = .ok v) :
    t.invokeJson input environment = .ok v := by
  simp [FnTool.invokeJson, hdec, hfn, henc]

/-- C1, concrete run: the always-failing fallible tool invoked on `Null`
returns `Ok("boom")` even though the wrapped function failed with `"boom"`. -/
theorem c1_fn_tool_delivers_error_as_ok_witness :
    alwaysErrTool.decodeInput .null = .ok .null
    ∧ alwaysErrTool.function .null () = .error (.str "boom")
    ∧ alwaysErrTool.encodeError (.str "boom") = .ok (.str "boom")
    ∧ alwaysErrTool.invokeJson .null () = .ok (.str "boom") :=
  ⟨rfl, rfl, rfl,
    c1_fn_tool_delivers_error_as_ok alwaysErrTool .null () .null (.str "boom") (.str "boom")
      rfl rfl rfl⟩

/-- On lists of equal length the element loop of `compare_array` agrees with
the spec's lexicographic comparison (the tiebreak case never fires). -/
theorem compareElems_eq_lexCompareSpec :
    ∀ xs ys : List JValue, xs.length = ys.length → compareElems xs ys = lexCompareSpec xs ys := by
  intro xs
  induction xs with
  | nil =>
    intro ys h
    cases ys with
    | nil => simp [compareElems, lexCompareSpec]
    | cons y ys => simp at h
  | cons x xs ih =>
    intro ys h
    cases ys with
    | nil => simp at h
    | cons y ys =>
      simp only [List.length_cons, Nat.add_right_cancel_iff] at h
      simp only [compareElems, lexCompareSpec]
      rw [ih ys h]

/-- C4, counterexample to the claim as stated: on `[[2], [1, 1]]` the
compare-values tool answers `-1` (the shorter array is smaller because the
lengths are compared *first*), while the lexicographic element-wise
comparison with length tiebreak demanded by the claim answers `1` (because
`2 > 1` at index 0). -/
theorem c4_compare_array_lex_counterexample :
    compareToolInvokeJson (.arr [.arr [.num (.u 2)], .arr [.num (.u 1), .num (.u 1)]])
      = .ok (.num (.i (-1)))
    ∧ lexCompareSpec [.num (.u 2)] [.num (.u 1), .num (.u 1)] = 1
    ∧ compareToolInvokeJson (.arr [.arr [.num (.u 2)], .arr [.num (.u 1), .num (.u 1)]])
        ≠ .ok (.num (.ofInt (lexCompareSpec [.num (.u 2)] [.num (.u 1), .num (.u 1)]))) := by
  refine ⟨?_, ?_, ?_⟩ <;>
    simp [compareToolInvokeJson, compareValues, compareArray, compareElems, compareNumber,
      lexCompareSpec, JNum.asI64, JNum.ofInt, cmp3, i64Max]

/-- C4, amended: for every two array values, the compare-values tool applied
to `[a, b]` returns the sign of their *length-first* comparison: the shorter
array is smaller outright, and only arrays of equal length are compared
element-wise (recursively, first difference wins). -/
theorem c4_compare_array_length_first (a b : List JValue) :
    compareToolInvokeJson (.arr [.arr a, .arr b])
      = .ok (.num (.ofInt
          (if a.length < b.length then -1
           else if b.length < a.length then 1
           else lexCompareSpec a b))) := by
  simp only [compareToolInvokeJson, compareValues, compareArray]
  split
  · rfl
  · split
    · rfl
    · rename_i h1 h2
      rw [compareElems_eq_lexCompareSpec a b (by omega)]

/-! ## Tools and environments

`src/src/basic/dynamic_environment.rs`, `gossyp_base/src/basic/static_environment.rs`,
`gossyp_base/src/basic/empty_environment.rs`.  The `Tool` trait objects that
appear in the claims are defunctionalised into the closed universe `ToolV`;
each constructor names the concrete source tool it models. -/

/-- `HashMap`/map lookup on an association list (keys are unique). -/
def assocLookup : List (String × α) → String → Option α
  | [], _ => none
  | (k, v) :: rest, key => if k = key then some v else assocLookup rest key

/-- `HashMap::insert`: replace the value under an existing key, else append. -/
def assocInsert : List (String × α) → String → α → List (String × α)
  | [], key, v => [(key, v)]
  | (k, w) :: rest, key, v =>
    if k = key then (key, v) :: rest else (k, w) :: assocInsert rest key v

/-- `HashMap::remove`: drop the entry under the key, if any. -/
def assocRemove : List (String × α) → String → List (String × α)
  | [], _ => []
  | (k, v) :: rest, key => if k = key then rest else (k, v) :: assocRemove rest key

/-- `tool_name::LIST_TOOLS`. -/
def LIST_TOOLS : String := "list-tools"

/-- `tool_name::DEFINE_TOOL`. -/
def DEFINE_TOOL : String := "define-tool"

/-- `tool_name::UNDEFINE_TOOL`. -/
def UNDEFINE_TOOL : String := "undefine-tool"

/-- A closed universe of the concrete `Tool` implementations the claims
exercise:

* `constTool out` — `make_tool(|_: Value| Ok::<Value, Value>(out))`;
* `probe name` — a direct `Tool` implementation that looks `name` up in its
  invocation environment and answers `Ok(Null)` when found and
  `Err(json!["Couldn't find tool"])` otherwise (the observable shape of
  `call_one` in the test `commands_can_access_parent_environment` of
  `gossyp_lang/src/script/evaluate_statement.rs`);
* `definer name out` — a direct `Tool` implementation that performs
  `define_new_tool(env, name, constTool out)` (the helper of
  `gossyp_base/src/basic/dynamic_environment_actions.rs`), i.e. defines a new
  tool through its invocation environment's `define-tool` meta-tool (the
  shape of `make_tool` in the test `commands_have_own_environment`);
* `statefulEval` — `StatefulEvalTool::new()`; no claim ever invokes it, so
  its invocation behaviour is not modelled. -/
inductive ToolV where
  | constTool (out : JValue)
  | probe (name : String)
  | definer (name : String) (out : JValue)
  | statefulEval

/-- The interior map of a `DynamicEnvironment` (`DynamicToolMap`): the tool
map plus the three meta-tool suppression flags. -/
structure DynMap where
  tools : List (String × ToolV)
  undefinedList : Bool
  undefinedDefine : Bool
  undefinedUndefine : Bool

/-- `DynamicEnvironment::new()`. -/
def DynMap.new : DynMap :=
  { tools := [], undefinedList := false, undefinedDefine := false, undefinedUndefine := false }

/-- `DynamicEnvironment::define`. -/
def dynDefine (m : DynMap) (name : String) (t : ToolV) : DynMap :=
  { m with tools := assocInsert m.tools name t }

/-- The `Box<Tool>` handles an environment lookup returns: either a wrapper
around a stored tool, or one of the three meta-tools a dynamic environment
synthesises on request (each freshly constructed handle is bound to the
environment it was obtained from; that binding is tracked by the caller in
this embedding). -/
inductive Handle where
  | stored (t : ToolV)
  | metaDefine
  | metaList
  | metaUndefine

/-- The environments the claims exercise: `EmptyEnvironment`,
`StaticEnvironment` (a fixed name→tool map), and `DynamicEnvironment`
(a `DynMap` interior). -/
inductive EnvV where
  | empty
  | staticE (tools : List (String × ToolV))
  | dyn (m : DynMap)

/-- `DynamicEnvironment::get_json_tool`, lines 210–267 of
`dynamic_environment.rs`: a mapped tool always wins; otherwise the three
meta-tool names synthesise fresh handles unless suppressed; otherwise
`RetrieveToolError::not_found()` (message `"Tool not found"`). -/
def dynEnvGet (m : DynMap) (name : String) : Except String Handle :=
  match assocLookup m.tools name with
  | some tool => .ok (.stored tool)
  | none =>
    if name = DEFINE_TOOL then
      if !m.undefinedDefine then .ok .metaDefine else .error "Tool not found"
    else if name = LIST_TOOLS then
      if !m.undefinedList then .ok .metaList else .error "Tool not found"
    else if name = UNDEFINE_TOOL then
      if !m.undefinedUndefine then .ok .metaUndefine else .error "Tool not found"
    else .error "Tool not found"

/-- `Environment::get_json_tool` across the environment variants. -/
def envGet : EnvV → String → Except String Handle
  | .empty, _ => .error "Tool not found"
  | .staticE tools, name =>
    match assocLookup tools name with
    | some tool => .ok (.stored tool)
    | none => .error "Tool not found"
  | .dyn m, name => dynEnvGet m name

/-- `DynamicEnvironment::undefine`, lines 136–164 of
`dynamic_environment.rs`: remove from the map, and for a meta-tool name also
set its suppression flag, reporting `true` iff something was removed or the
flag was newly set. -/
def dynUndefine (m : DynMap) (name : String) : Bool × DynMap :=
  let lastValue := assocLookup m.tools name
  let tools' := assocRemove m.tools name
  let removed := lastValue.isSome
  if name = DEFINE_TOOL then
    (removed || !m.undefinedDefine, { m with tools := tools', undefinedDefine := true })
  else if name = UNDEFINE_TOOL then
    (removed || !m.undefinedUndefine, { m with tools := tools', undefinedUndefine := true })
  else if name = LIST_TOOLS then
    (removed || !m.undefinedList, { m with tools := tools', undefinedList := true })
  else
    (removed, { m with tools := tools' })

/-- The suppression flag guarding a meta-tool name. -/
def metaSuppressed (m : DynMap) (name : String) : Bool :=
  if name = DEFINE_TOOL then m.undefinedDefine
  else if name = UNDEFINE_TOOL then m.undefinedUndefine
  else if name = LIST_TOOLS then m.undefinedList
  else false

/-- A `none` lookup means there is nothing to remove. -/
theorem assocRemove_of_lookup_none (l : List (String × α)) (key : String)
    (h : assocLookup l key = none) : assocRemove l key = l := by
  induction l with
  | nil => rfl
  | cons kv rest ih =>
    obtain ⟨k, v⟩ := kv
    by_cases hk : k = key
    · simp [assocLookup, hk] at h
    · simp [assocLookup, hk] at h
      simp [assocRemove, hk, ih h]

/-- C6.  On a dynamic environment whose map does not explicitly contain a
meta-tool name and where that meta-tool has not been undefined before: the
first `undefine` of the name reports `true`, a `get` of the name afterwards
fails with `Tool not found`, and a second `undefine` reports `false`. -/
theorem c6_meta_tool_undefine_suppresses (m : DynMap) (name : String)
    (hmeta : name = DEFINE_TOOL ∨ name = UNDEFINE_TOOL ∨ name = LIST_TOOLS)
    (hlook : assocLookup m.tools name = none)
    (hflag : metaSuppressed m name = false) :
    (dynUndefine m name).1 = true
    ∧ dynEnvGet (dynUndefine m name).2 name = .error "Tool not found"
    ∧ (dynUndefine (dynUndefine m name).2 name).1 = false := by
  have hrem := assocRemove_of_lookup_none m.tools name hlook
  rcases hmeta with h | h | h <;> subst h <;>
    simp only [metaSuppressed, DEFINE_TOOL, UNDEFINE_TOOL, LIST_TOOLS] at hflag hlook hrem <;>
    simp [metaSuppressed, DEFINE_TOOL, UNDEFINE_TOOL, LIST_TOOLS] at hflag <;>
    simp [dynUndefine, dynEnvGet, DEFINE_TOOL, UNDEFINE_TOOL, LIST_TOOLS, hrem, hlook, hflag]

/-- C6, concrete run on a fresh dynamic environment and `define-tool`. -/
theorem c6_meta_tool_undefine_suppresses_witness :
    ((DEFINE_TOOL : String) = DEFINE_TOOL ∨ (DEFINE_TOOL : String) = UNDEFINE_TOOL
        ∨ (DEFINE_TOOL : String) = LIST_TOOLS)
    ∧ assocLookup DynMap.new.tools DEFINE_TOOL = none
    ∧ metaSuppressed DynMap.new DEFINE_TOOL = false
    ∧ ((dynUndefine DynMap.new DEFINE_TOOL).1 = true
        ∧ dynEnvGet (dynUndefine DynMap.new DEFINE_TOOL).2 DEFINE_TOOL = .error "Tool not found"
        ∧ (dynUndefine (dynUndefine DynMap.new DEFINE_TOOL).2 DEFINE_TOOL).1 = false) :=
  ⟨Or.inl rfl, rfl, rfl,
    c6_meta_tool_undefine_suppresses DynMap.new DEFINE_TOOL (Or.inl rfl) rfl rfl⟩

/-! ## Tool invocation by the script evaluator (claim C2)

`gossyp_lang/src/script/evaluate_expression.rs`, `call_tool` (lines 85–93). -/

/-- The error value `get_tool` of `dynamic_environment_actions.rs` produces
when an environment lookup fails. -/
def getToolNotFoundErr (toolName msg : String) : JValue :=
  .obj [("error", .str "Tool not found"), ("tool_name", .str toolName),
        ("description", .str msg)]

/-- `Tool::invoke_json` for the defunctionalised tool universe.  The returned
environment is the (possibly mutated) invocation environment.  Only the
`definer` constructor mutates it, and only through the synthesised
`define-tool` meta-tool of a dynamic environment — the one path the claims
exercise; a custom tool stored under the name `define-tool` is not modelled,
and neither is an invocation of the stateful evaluator (no claim performs
either). -/
def invokeTool (t : ToolV) (_input : JValue) (env : EnvV) : Except JValue JValue × EnvV :=
  match t with
  | .constTool out => (.ok out, env)
  | .probe name =>
    match envGet env name with
    | .ok _ => (.ok .null, env)
    | .error _ => (.error (.str "Couldn't find tool"), env)
  | .definer name out =>
    match env with
    | .dyn m =>
      match dynEnvGet m DEFINE_TOOL with
      | .ok .metaDefine => (.ok .null, .dyn (dynDefine m name (.constTool out)))
      | .ok _ => (.error (.str "custom define-tool is not modelled"), env)
      | .error msg => (.error (getToolNotFoundErr DEFINE_TOOL msg), env)
    | _ => (.error (getToolNotFoundErr DEFINE_TOOL "Tool not found"), env)
  | .statefulEval => (.error (.str "StatefulEvalTool invocation is not modelled"), env)

/-- `call_tool`, lines 85–93 of `evaluate_expression.rs`: the tool is invoked
in a freshly constructed `DynamicEnvironment::new()`; the caller-supplied
`environment` parameter is **unused** (the `TODO: combine with the
environment that was passed in` on line 89 is not implemented).  The second
component is the tool's own environment after the call (discarded by the
source). -/
def callTool (tool : ToolV) (parameters : JValue) (_environment : EnvV) :
    Except JValue JValue × EnvV :=
  invokeTool tool parameters (.dyn DynMap.new)

/-- A caller environment owning the tool `one` (the scenario of the source's
own test `commands_can_access_parent_environment`). -/
def callerEnvWithOne : EnvV :=
  .dyn { DynMap.new with tools := [("one", .constTool (.num (.u 1)))] }

/-- C2.  Evaluating the code at the scenario of the repository's own tests:
part (i) of the claim holds — a tool defining `subtool` does so in the fresh
environment `call_tool` hands it, and the caller's environment (in which
`subtool` never resolves) is untouched — but part (ii) fails: the tool `one`
resolves in the caller's environment, yet a tool that looks `one` up in the
environment it is invoked with fails, because `call_tool` passes a fresh
empty `DynamicEnvironment` instead of (a view of) the caller's environment. -/
theorem c2_call_tool_env_isolated_but_caller_tools_invisible :
    -- the caller's environment resolves `one`
    envGet callerEnvWithOne "one" = .ok (.stored (.constTool (.num (.u 1))))
    -- (ii) fails: invoked under `call_tool`, a probe for `one` does not see it
    ∧ (callTool (.probe "one") .null callerEnvWithOne).1 = .error (.str "Couldn't find tool")
    -- (i) holds: a defining tool succeeds, its definition lands in the fresh
    -- environment handed to it, and the caller's environment still does not
    -- resolve `subtool`
    ∧ (callTool (.definer "subtool" .null) .null callerEnvWithOne).1 = .ok .null
    ∧ (callTool (.definer "subtool" .null) .null callerEnvWithOne).2
        = .dyn (dynDefine DynMap.new "subtool" (.constTool .null))
    ∧ envGet callerEnvWithOne "subtool" = .error "Tool not found" := by
  refine ⟨rfl, ?_, rfl, rfl, ?_⟩ <;> rfl

/-! ## The stateful evaluator factory (claim C3)

`gossyp_lang/src/script/stateful_eval.rs`, `create_evaluator_with_state_tool`
(lines 79–95), together with the serde codecs of `DefineToolInput` /
`UndefineToolInput` / `()` and the synthesised meta-tools of
`dynamic_environment.rs` that the factory invokes. -/

/-- `DefineToolInput` of `dynamic_environment.rs`. -/
structure DefineToolInput where
  source_name : String
  target_name : Option String

/-- `to_value::<DefineToolInput>` (derived serde serialisation: a struct is
an object in field order; `Option` is the value or `null`). -/
def encodeDefineToolInput (i : DefineToolInput) : JValue :=
  .obj [("source_name", .str i.source_name),
        ("target_name", match i.target_name with | some s => .str s | none => .null)]

/-- `from_value::<DefineToolInput>`: requires a `source_name` string; a
missing or `null` `target_name` is `None`; unknown fields are ignored. -/
def decodeDefineToolInput (v : JValue) : Option DefineToolInput :=
  match v with
  | .obj fields =>
    match assocLookup fields "source_name" with
    | some (.str s) =>
      match assocLookup fields "target_name" with
      | none => some ⟨s, none⟩
      | some .null => some ⟨s, none⟩
      | some (.str t) => some ⟨s, some t⟩
      | some _ => none
    | _ => none
  | _ => none

/-- `from_value::<UndefineToolInput>`: an object with a `name` string. -/
def decodeUndefineToolInput (v : JValue) : Option String :=
  match v with
  | .obj fields =>
    match assocLookup fields "name" with
    | some (.str s) => some s
    | _ => none
  | _ => none

/-- `from_value::<()>`: only `Null` deserialises to the unit type. -/
def decodeUnit (v : JValue) : Option Unit :=
  match v with
  | .null => some ()
  | _ => none

/-- The `description()` of serde's error when a non-null value is
deserialised as `()`; the exact text is immaterial to every claim. -/
def unitDecodeFailedDescription : String := "invalid type: map, expected unit"

/-- The `description()` of serde's error when a value that is not a
well-formed `DefineToolInput` object is deserialised; exact text immaterial. -/
def defineInputDecodeFailedDescription : String := "missing field source_name"

/-- `DynamicEnvironment::list_tools`, lines 191–206: map keys plus the
non-suppressed meta names, sorted and deduplicated. -/
def dynListTools (m : DynMap) : List String :=
  dedupSorted (sortStrings
    (m.tools.map (·.1)
      ++ (if !m.undefinedDefine then [DEFINE_TOOL] else [])
      ++ (if !m.undefinedUndefine then [UNDEFINE_TOOL] else [])
      ++ (if !m.undefinedList then [LIST_TOOLS] else [])))

/-- `ListToolsResult` serialised. -/
def encodeListToolsResult (names : List String) : JValue :=
  .obj [("names", .arr (names.map .str))]

/-- `invoke_json` of a handle returned by a dynamic environment's `get`:
`target` is the dynamic environment's interior the handle is bound to (the
`self.clone()` captured by the synthesised closures), `sourceEnv` the
environment supplied at invocation time.  The synthesised tools are
`make_dynamic_tool`/`make_pure_tool` products, so they run through
`FnTool::invoke_json` — including its behaviour of answering on the **Ok**
channel when the wrapped function fails but the failure value encodes
successfully (claim C1, line 67 of `functional_tool.rs`). -/
def invokeDynHandle (handle : Handle) (target : DynMap) (input : JValue) (sourceEnv : EnvV) :
    Except JValue JValue × DynMap :=
  match handle with
  | .stored t => ((invokeTool t input sourceEnv).1, target)
  | .metaDefine =>
    match decodeDefineToolInput input with
    | none =>
      (.error (.obj [("error", .str "JSON input decode failed"),
                     ("description", .str defineInputDecodeFailedDescription)]), target)
    | some di =>
      -- `define_tool(&input.source_name, &input.target_name.unwrap_or(input.source_name), source_environment)`
      match envGet sourceEnv di.source_name with
      | .ok (.stored t) =>
        -- the function returns `Ok(())`, encoded as `Null`
        (.ok .null, dynDefine target (di.target_name.getD di.source_name) t)
      | .ok _ =>
        -- copying a synthesised meta handle between environments: no claim
        -- exercises this, so it is not modelled
        (.error (.str "storing a synthesised meta handle is not modelled"), target)
      | .error msg =>
        -- the function returns `Err({error: "Could not find source tool", …})`;
        -- `FnTool::invoke_json` encodes it successfully and hands it back as Ok
        (.ok (.obj [("error", .str "Could not find source tool"),
                    ("description", .str msg)]), target)
  | .metaList =>
    match decodeUnit input with
    | some _ => (.ok (encodeListToolsResult (dynListTools target)), target)
    | none =>
      (.error (.obj [("error", .str "JSON input decode failed"),
                     ("description", .str unitDecodeFailedDescription)]), target)
  | .metaUndefine =>
    match decodeUndefineToolInput input with
    | some name =>
      let r := dynUndefine target name
      (.ok (.bool r.1), r.2)
    | none =>
      (.error (.obj [("error", .str "JSON input decode failed"),
                     ("description", .str unitDecodeFailedDescription)]), target)

/-- `create_evaluator_with_state_tool`, lines 79–95 of `stateful_eval.rs`:
fetch `define-tool` from the caller's environment; build the ephemeral static
environment holding the new `StatefulEvalTool` under the name
`"stateful-eval"`; invoke the fetched tool, typed as
`TypedTool::<DefineToolInput, ()>`, with
`DefineToolInput::new(&eval_name, Some("stateful-eval"))` under that static
environment.  The caller's environment is a dynamic environment with interior
`caller`; the possibly mutated interior is returned alongside the result. -/
def createEvaluatorWithState (evalName : String) (caller : DynMap) :
    Except JValue Unit × DynMap :=
  match dynEnvGet caller DEFINE_TOOL with
  | .error msg =>
    (.error (.obj [("error", .str "Cannot define tool"), ("description", .str msg)]), caller)
  | .ok handle =>
    let statefulEnv : EnvV := .staticE [("stateful-eval", .statefulEval)]
    let invoked := invokeDynHandle handle caller
      (encodeDefineToolInput ⟨evalName, some "stateful-eval"⟩) statefulEnv
    match invoked.1 with
    | .ok out =>
      match decodeUnit out with
      | some _ => (.ok (), invoked.2)
      | none =>
        (.error (.obj [("error", .str "Result decode failed"),
                       ("description", .str unitDecodeFailedDescription)]), invoked.2)
    | .error e => (.error e, invoked.2)

/-- C3.  Evaluating the factory at a fresh caller environment and the name
`"my-eval"`: because `DefineToolInput::new(&eval_name, Some("stateful-eval"))`
passes the *requested* name as the `source_name`, the define-tool looks
`"my-eval"` up in the ephemeral static environment (which only holds
`"stateful-eval"`), fails, and — through the error-encode path of
`FnTool::invoke_json` — the factory returns a `Result decode failed` error;
nothing is defined under `"my-eval"` in the caller's environment.  Only the
degenerate name `"stateful-eval"` ever succeeds, and even then the tool is
defined under `"stateful-eval"`, not under a caller-chosen name. -/
theorem c3_create_evaluator_with_state_fails_for_fresh_name :
    (createEvaluatorWithState "my-eval" DynMap.new).1
      = .error (.obj [("error", .str "Result decode failed"),
                      ("description", .str unitDecodeFailedDescription)])
    ∧ (createEvaluatorWithState "my-eval" DynMap.new).2 = DynMap.new
    ∧ dynEnvGet (createEvaluatorWithState "my-eval" DynMap.new).2 "my-eval"
        = .error "Tool not found"
    ∧ (createEvaluatorWithState "stateful-eval" DynMap.new).1 = .ok ()
    ∧ (createEvaluatorWithState "stateful-eval" DynMap.new).2
        = dynDefine DynMap.new "stateful-eval" .statefulEval := by
  refine ⟨rfl, rfl, rfl, rfl, rfl⟩

/-! ## Order facts about the string comparison -/

/-- `Char` is determined by its code point. -/
theorem charToNat_inj {a b : Char} (h : a.toNat = b.toNat) : a = b :=
  Char.eq_of_val_eq (UInt32.toNat.inj h)

/-- Comparing a char list with itself yields `0`. -/
theorem charListCmp_self (as : List Char) : charListCmp as as = 0 := by
  induction as with
  | nil => rfl
  | cons a as ih => simp [charListCmp, ih]

/-- Swapping the arguments negates the comparison. -/
theorem charListCmp_swap (as : List Char) :
    ∀ bs, charListCmp as bs = -charListCmp bs as := by
  induction as with
  | nil => intro bs; cases bs <;> simp [charListCmp]
  | cons a as ih =>
    intro bs
    cases bs with
    | nil => simp [charListCmp]
    | cons b bs =>
      simp only [charListCmp]
      rcases Nat.lt_trichotomy a.toNat b.toNat with h | h | h
      · simp [h, Nat.lt_asymm h]
      · simp [h, Nat.lt_irrefl, ih bs]
      · simp [h, Nat.lt_asymm h]

/-- A zero comparison means the char lists are equal. -/
theorem charListCmp_eq_zero (as : List Char) :
    ∀ bs, charListCmp as bs = 0 → as = bs := by
  induction as with
  | nil => intro bs; cases bs <;> simp [charListCmp]
  | cons a as ih =>
    intro bs
    cases bs with
    | nil => simp [charListCmp]
    | cons b bs =>
      simp only [charListCmp]
      split
      · omega
      · split
        · omega
        · intro h
          have hab : a = b := charToNat_inj (by omega)
          rw [hab, ih bs h]

/-- `≤`-transitivity of the char list comparison. -/
theorem charListCmp_le_trans (as : List Char) :
    ∀ bs cs, charListCmp as bs ≤ 0 → charListCmp bs cs ≤ 0 → charListCmp as cs ≤ 0 := by
  induction as with
  | nil => intro bs cs _ _; cases cs <;> simp [charListCmp]
  | cons a as ih =>
    intro bs cs h1 h2
    cases bs with
    | nil => simp [charListCmp] at h1
    | cons b bs =>
      cases cs with
      | nil => simp [charListCmp] at h2
      | cons c cs =>
        rcases Nat.lt_trichotomy a.toNat b.toNat with hab | hab | hab
        · rcases Nat.lt_trichotomy b.toNat c.toNat with hbc | hbc | hbc
          · simp [charListCmp, Nat.lt_trans hab hbc]
          · simp [charListCmp, hbc ▸ hab]
          · simp [charListCmp, hbc, Nat.lt_asymm hbc] at h2
        · rcases Nat.lt_trichotomy b.toNat c.toNat with hbc | hbc | hbc
          · simp [charListCmp, hab ▸ hbc]
          · simp only [charListCmp, hab, hbc, Nat.lt_irrefl, if_false] at h1 h2 ⊢
            exact ih bs cs h1 h2
          · simp [charListCmp, hbc, Nat.lt_asymm hbc] at h2
        · simp [charListCmp, hab, Nat.lt_asymm hab] at h1

/-- Strict-then-weak transitivity of the char list comparison. -/
theorem charListCmp_lt_le_trans (as : List Char) :
    ∀ bs cs, charListCmp as bs < 0 → charListCmp bs cs ≤ 0 → charListCmp as cs < 0 := by
  induction as with
  | nil =>
    intro bs cs h1 h2
    cases bs with
    | nil => simp [charListCmp] at h1
    | cons b bs =>
      cases cs with
      | nil => simp [charListCmp] at h2
      | cons c cs => simp [charListCmp]
  | cons a as ih =>
    intro bs cs h1 h2
    cases bs with
    | nil => simp [charListCmp] at h1
    | cons b bs =>
      cases cs with
      | nil => simp [charListCmp] at h2
      | cons c cs =>
        rcases Nat.lt_trichotomy a.toNat b.toNat with hab | hab | hab
        · rcases Nat.lt_trichotomy b.toNat c.toNat with hbc | hbc | hbc
          · simp [charListCmp, Nat.lt_trans hab hbc]
          · simp [charListCmp, hbc ▸ hab]
          · simp [charListCmp, hbc, Nat.lt_asymm hbc] at h2
        · rcases Nat.lt_trichotomy b.toNat c.toNat with hbc | hbc | hbc
          · simp [charListCmp, hab ▸ hbc]
          · simp only [charListCmp, hab, hbc, Nat.lt_irrefl, if_false] at h1 h2 ⊢
            exact ih bs cs h1 h2
          · simp [charListCmp, hbc, Nat.lt_asymm hbc] at h2
        · simp [charListCmp, hab, Nat.lt_asymm hab] at h1

/-- The boolean string order is total. -/
theorem strLeb_total (a b : String) : strLeb a b || strLeb b a := by
  simp only [strLeb, strCmp, Bool.or_eq_true, Bool.not_eq_eq_eq_not, Bool.not_true,
    decide_eq_false_iff_not, Int.not_lt]
  have := charListCmp_swap a.data b.data
  omega

/-- The boolean string order is transitive. -/
theorem strLeb_trans (a b c : String) (h1 : strLeb a b) (h2 : strLeb b c) : strLeb a c := by
  simp only [strLeb, Bool.not_eq_eq_eq_not, Bool.not_true, decide_eq_false_iff_not,
    Int.not_lt, strCmp] at h1 h2 ⊢
  exact charListCmp_le_trans a.data b.data c.data h1 h2

/-- Weak order plus distinctness gives the strict order. -/
theorem strCmp_lt_of_leb_of_ne {a b : String} (hle : strLeb a b) (hne : a ≠ b) :
    strCmp a b < 0 := by
  simp only [strLeb, Bool.not_eq_eq_eq_not, Bool.not_true, decide_eq_false_iff_not,
    Int.not_lt] at hle
  rcases lt_or_eq_of_le hle with h | h
  · exact h
  · exact absurd (String.ext (charListCmp_eq_zero a.data b.data h)) hne

/-- `strCmp` is irreflexive at `0`. -/
theorem strCmp_self (a : String) : strCmp a a = 0 :=
  charListCmp_self a.data

/-- `dedupSorted` keeps exactly the members of its input. -/
theorem mem_dedupSorted (l : List String) : ∀ x, x ∈ dedupSorted l ↔ x ∈ l := by
  induction l with
  | nil => intro x; simp [dedupSorted]
  | cons a t ih =>
    intro x
    match t, ih with
    | [], _ => simp [dedupSorted]
    | b :: t, ih =>
      by_cases hab : a = b
      · subst hab
        simp [dedupSorted, ih x]
      · simp [dedupSorted, hab, ih x]

/-- On a `≤`-sorted list, `dedupSorted` produces a strictly sorted list. -/
theorem dedupSorted_strict (l : List String) (h : l.Pairwise (fun a b => strLeb a b = true)) :
    (dedupSorted l).Pairwise (fun a b => strCmp a b < 0) := by
  induction l with
  | nil => simp [dedupSorted]
  | cons a t ih =>
    match t, h, ih with
    | [], _, _ => simp [dedupSorted]
    | b :: t, h, ih =>
      have hpair := List.pairwise_cons.mp h
      have hrest := ih hpair.2
      by_cases hab : a = b
      · simpa [dedupSorted, hab] using hrest
      · rw [show dedupSorted (a :: b :: t) = a :: dedupSorted (b :: t) from by
          simp [dedupSorted, hab]]
        refine List.pairwise_cons.mpr ⟨?_, hrest⟩
        intro x hx
        have hxmem : x ∈ b :: t := (mem_dedupSorted (b :: t) x).mp hx
        have hab' : strCmp a b < 0 := strCmp_lt_of_leb_of_ne (hpair.1 b (by simp)) hab
        rcases List.mem_cons.mp hxmem with hxb | hxt
        · exact hxb ▸ hab'
        · have hbx : strLeb b x = true := (List.pairwise_cons.mp hpair.2).1 x hxt
          simp only [strLeb, Bool.not_eq_eq_eq_not, Bool.not_true, decide_eq_false_iff_not,
            Int.not_lt] at hbx
          exact charListCmp_lt_le_trans a.data b.data x.data hab' hbx

/-- `sortStrings` sorts by the boolean string order and keeps the members. -/
theorem sortStrings_sorted (l : List String) :
    (sortStrings l).Pairwise (fun a b => strLeb a b = true) :=
  List.sorted_mergeSort (fun a b c => strLeb_trans a b c) strLeb_total l

/-- Members of the sorted list are the members of the input. -/
theorem mem_sortStrings (l : List String) : ∀ x, x ∈ sortStrings l ↔ x ∈ l := by
  intro x
  exact (List.mergeSort_perm l strLeb).mem_iff

/-! ## The layered environment's `list-tools` synthesis (claim C5)

`src/src/basic/combined_environment.rs`, `CombinedEnvironment::list_tools`
(lines 47–74).  The child environments are trait objects; each child is
represented extensionally by its response to the only two operations the
synthesis performs on it: `get_json_tool("list-tools")` and, on the returned
tool, one `invoke_json(Null, EmptyEnvironment)`. -/

/-- A child's `list-tools` tool, represented by the result of the single
invocation (`Null` input, empty environment) the synthesis performs. -/
structure ChildListTool where
  invokeNullResult : Except JValue JValue

/-- A child environment, represented by its response to
`get_json_tool("list-tools")`. -/
structure ChildEnv where
  listToolsLookup : Except String ChildListTool

/-- `from_value::<ListToolsResult>`: an object whose `names` field is an
array of strings (unknown fields ignored). -/
def decodeListToolsResult (v : JValue) : Option (List String) :=
  match v with
  | .obj fields =>
    match assocLookup fields "names" with
    | some (.arr xs) => stringsOfValues xs
    | _ => none
  | _ => none
where
  /-- Every element must deserialise as a string. -/
  stringsOfValues : List JValue → Option (List String)
    | [] => some []
    | .str s :: rest => (stringsOfValues rest).map (s :: ·)
    | _ => none

/-- The iterator pipeline of `CombinedEnvironment::list_tools` before the
sort: fetch each child's `list-tools` (dropping failed lookups), invoke each
(dropping failed invocations), decode each result (`unwrap_or` the empty name
list), and concatenate. -/
def combinedNamesRaw (children : List ChildEnv) : List String :=
  let tools := children.filterMap fun env =>
    match env.listToolsLookup with
    | .ok t => some t
    | .error _ => none
  let results := tools.filterMap fun tool =>
    match tool.invokeNullResult with
    | .ok v => some v
    | .error _ => none
  let decoded := results.map fun result => (decodeListToolsResult result).getD []
  decoded.flatten

/-- `CombinedEnvironment::list_tools`: concatenate, sort, dedup. -/
def combinedListTools (children : List ChildEnv) : List String :=
  dedupSorted (sortStrings (combinedNamesRaw children))

/-- When every child resolves and decodes, the pipeline yields exactly the
concatenation of the children's name lists. -/
theorem combinedNamesRaw_eq (children : List ChildEnv) (nss : List (List String))
    (h : List.Forall₂ (fun c ns => ∃ t v, c.listToolsLookup = .ok t
        ∧ t.invokeNullResult = .ok v ∧ decodeListToolsResult v = some ns) children nss) :
    combinedNamesRaw children = nss.flatten := by
  induction h with
  | nil => rfl
  | cons hd _ ih =>
    obtain ⟨t, v, hlook, hinv, hdec⟩ := hd
    simp only [combinedNamesRaw, List.filterMap_cons, hlook, hinv, List.map_cons, hdec,
      Option.getD_some, List.flatten_cons] at ih ⊢
    rw [ih]

/-- C5.  On a layered environment whose children all resolve `list-tools` to
a tool that succeeds and decodes as `{names: [String]}`, the synthesised
`list-tools` output is strictly sorted in the lexicographic string order
(hence sorted and duplicate-free), and its members are exactly the union of
the children's name sets. -/
theorem c5_combined_list_tools_sorted_dedup_union
    (children : List ChildEnv) (nss : List (List String))
    (h : List.Forall₂ (fun c ns => ∃ t v, c.listToolsLookup = .ok t
        ∧ t.invokeNullResult = .ok v ∧ decodeListToolsResult v = some ns) children nss) :
    (combinedListTools children).Pairwise (fun a b => strCmp a b < 0)
    ∧ (combinedListTools children).Nodup
    ∧ ∀ s, s ∈ combinedListTools children ↔ ∃ ns ∈ nss, s ∈ ns := by
  have hsorted := dedupSorted_strict _ (sortStrings_sorted (combinedNamesRaw children))
  refine ⟨hsorted, ?_, ?_⟩
  · exact hsorted.imp fun hlt heq => by simp [heq, strCmp_self] at hlt
  · intro s
    rw [combinedListTools, mem_dedupSorted, mem_sortStrings,
      combinedNamesRaw_eq children nss h, List.mem_flatten]

/-- Two concrete children for the C5 witness (the scenario of the source's
test `can_list_tools`: names `{first-tool, define-tool, …}` and
`{second-tool, define-tool, …}`). -/
def childA : ChildEnv :=
  ⟨.ok ⟨.ok (encodeListToolsResult ["define-tool", "first-tool", "list-tools", "undefine-tool"])⟩⟩

/-- Second concrete child for the C5 witness. -/
def childB : ChildEnv :=
  ⟨.ok ⟨.ok (encodeListToolsResult ["define-tool", "list-tools", "second-tool", "undefine-tool"])⟩⟩

/-- C5, concrete run: the hypotheses hold for two overlapping children, and
the theorem applies. -/
theorem c5_combined_list_tools_sorted_dedup_union_witness :
    List.Forall₂ (fun c ns => ∃ t v, c.listToolsLookup = .ok t
        ∧ t.invokeNullResult = .ok v ∧ decodeListToolsResult v = some ns)
      [childA, childB]
      [["define-tool", "first-tool", "list-tools", "undefine-tool"],
       ["define-tool", "list-tools", "second-tool", "undefine-tool"]]
    ∧ ((combinedListTools [childA, childB]).Pairwise (fun a b => strCmp a b < 0)
        ∧ (combinedListTools [childA, childB]).Nodup
        ∧ ∀ s, s ∈ combinedListTools [childA, childB] ↔
            ∃ ns ∈ [["define-tool", "first-tool", "list-tools", "undefine-tool"],
                    ["define-tool", "list-tools", "second-tool", "undefine-tool"]], s ∈ ns) := by
  have hf : List.Forall₂ (fun c ns => ∃ t v, c.listToolsLookup = .ok t
      ∧ t.invokeNullResult = .ok v ∧ decodeListToolsResult v = some ns)
      [childA, childB]
      [["define-tool", "first-tool", "list-tools", "undefine-tool"],
       ["define-tool", "list-tools", "second-tool", "undefine-tool"]] := by
    refine List.Forall₂.cons ⟨_, _, rfl, rfl, rfl⟩ (List.Forall₂.cons ⟨_, _, rfl, rfl, rfl⟩ .nil)
  exact ⟨hf, c5_combined_list_tools_sorted_dedup_union _ _ hf⟩

/-! ## The script parse tree and bound tree

`src/src/script/script.rs` (the `Script`/`Expression`/`ScriptToken` types; the
file is shared between the crates) and
`gossyp_lang/src/script/bound_script.rs`.  A Rust `Box<(A, B)>` payload is
flattened into two constructor fields. -/

/-- `ScriptLexerToken`. -/
inductive ScriptLexerToken where
  | Unknown
  | EndOfFile
  | Identifier
  | String
  | Number
  | HexNumber
  | Newline
  | Whitespace
  | Comment
  | Let
  | Var
  | If
  | Using
  | While
  | Do
  | Loop
  | For
  | In
  | Def
  | Symbol (sym : String)
  deriving Repr

/-- `ScriptToken` (the source field `end` is renamed `endPos`; `end` is a
Lean keyword).  Offsets are `i32`. -/
structure ScriptToken where
  token : ScriptLexerToken
  start : Int
  endPos : Int
  matched : String

/-- `Expression` of `script.rs`. -/
inductive Expression where
  | String (tok : ScriptToken)
  | Number (tok : ScriptToken)
  | Array (items : List Expression)
  | Tuple (items : List Expression)
  | Map (items : List (Expression × Expression))
  | Identifier (tok : ScriptToken)
  | Index (lhs rhs : Expression)
  | FieldAccess (lhs rhs : Expression)
  | Apply (callee arg : Expression)

/-- `Script` of `script.rs`. -/
inductive Script where
  | RunCommand (expr : Expression)
  | Sequence (parts : List Script)
  | Let (name : ScriptToken) (expr : Expression)
  | Var (name : ScriptToken) (expr : Expression)
  | Assign (name : ScriptToken) (expr : Expression)
  | Loop (body : Script)
  | While (cond : Expression) (body : Script)
  | Using (expr : Expression) (body : Script)
  | Def (name : ScriptToken) (pattern : Expression) (body : Script)

/-- `BoundExpression` of `bound_script.rs`; the `Tool` node carries the
`Rc<Box<Tool>>` handle the binder looked up. -/
inductive BoundExpression where
  | Value (value : JValue) (tok : ScriptToken)
  | Array (items : List BoundExpression)
  | Tuple (items : List BoundExpression)
  | Map (items : List (BoundExpression × BoundExpression))
  | Tool (handle : Handle) (tok : ScriptToken)
  | Variable (slot : Nat) (tok : ScriptToken)
  | Field (name : String) (tok : ScriptToken)
  | Index (lhs rhs : BoundExpression)
  | FieldAccess (lhs rhs : BoundExpression)
  | Apply (callee arg : BoundExpression)

/-- `BoundScript` of `bound_script.rs`; slots are `u32`. -/
inductive BoundScript where
  | AllocateVariables (count : Nat) (body : BoundScript)
  | RunCommand (expr : BoundExpression)
  | Sequence (parts : List BoundScript)
  | Let (slot : Nat) (expr : BoundExpression) (tok : ScriptToken)
  | Var (slot : Nat) (expr : BoundExpression) (tok : ScriptToken)
  | Assign (slot : Nat) (expr : BoundExpression) (tok : ScriptToken)
  | Loop (body : BoundScript)
  | While (cond : BoundExpression) (body : BoundScript)
  | Using (expr : BoundExpression) (body : BoundScript)
  | Def (name : ScriptToken) (pattern : BoundExpression) (body : BoundScript)

/-! ## Serde serialisation of the AST (used by the binder/evaluator error
values).  Derived serde encoding: a unit enum variant is its name string, a
payload variant is a one-field object, a tuple is an array, a struct is an
object in field order. -/

/-- `to_value` of a `ScriptLexerToken`. -/
def jsonOfLexerToken : ScriptLexerToken → JValue
  | .Unknown => .str "Unknown"
  | .EndOfFile => .str "EndOfFile"
  | .Identifier => .str "Identifier"
  | .String => .str "String"
  | .Number => .str "Number"
  | .HexNumber => .str "HexNumber"
  | .Newline => .str "Newline"
  | .Whitespace => .str "Whitespace"
  | .Comment => .str "Comment"
  | .Let => .str "Let"
  | .Var => .str "Var"
  | .If => .str "If"
  | .Using => .str "Using"
  | .While => .str "While"
  | .Do => .str "Do"
  | .Loop => .str "Loop"
  | .For => .str "For"
  | .In => .str "In"
  | .Def => .str "Def"
  | .Symbol s => .obj [("Symbol", .str s)]

/-- `to_value` of a `ScriptToken` (the `end` field keeps its serde name). -/
def jsonOfToken (t : ScriptToken) : JValue :=
  .obj [("token", jsonOfLexerToken t.token), ("start", .num (.ofInt t.start)),
        ("end", .num (.ofInt t.endPos)), ("matched", .str t.matched)]

mutual

/-- `to_value` of an `Expression`. -/
def jsonOfExpression : Expression → JValue
  | .String tok => .obj [("String", jsonOfToken tok)]
  | .Number tok => .obj [("Number", jsonOfToken tok)]
  | .Array items => .obj [("Array", .arr (jsonOfExpressionList items))]
  | .Tuple items => .obj [("Tuple", .arr (jsonOfExpressionList items))]
  | .Map items => .obj [("Map", .arr (jsonOfExpressionPairs items))]
  | .Identifier tok => .obj [("Identifier", jsonOfToken tok)]
  | .Index lhs rhs => .obj [("Index", .arr [jsonOfExpression lhs, jsonOfExpression rhs])]
  | .FieldAccess lhs rhs =>
    .obj [("FieldAccess", .arr [jsonOfExpression lhs, jsonOfExpression rhs])]
  | .Apply callee arg => .obj [("Apply", .arr [jsonOfExpression callee, jsonOfExpression arg])]

/-- Elementwise serialisation of an expression list. -/
def jsonOfExpressionList : List Expression → List JValue
  | [] => []
  | e :: rest => jsonOfExpression e :: jsonOfExpressionList rest

/-- Elementwise serialisation of expression pairs (a pair is a 2-array). -/
def jsonOfExpressionPairs : List (Expression × Expression) → List JValue
  | [] => []
  | (a, b) :: rest => .arr [jsonOfExpression a, jsonOfExpression b] :: jsonOfExpressionPairs rest

end

mutual

/-- `to_value` of a `Script`. -/
def jsonOfScript : Script → JValue
  | .RunCommand e => .obj [("RunCommand", jsonOfExpression e)]
  | .Sequence parts => .obj [("Sequence", .arr (jsonOfScriptList parts))]
  | .Let name e => .obj [("Let", .arr [jsonOfToken name, jsonOfExpression e])]
  | .Var name e => .obj [("Var", .arr [jsonOfToken name, jsonOfExpression e])]
  | .Assign name e => .obj [("Assign", .arr [jsonOfToken name, jsonOfExpression e])]
  | .Loop body => .obj [("Loop", jsonOfScript body)]
  | .While cond body => .obj [("While", .arr [jsonOfExpression cond, jsonOfScript body])]
  | .Using e body => .obj [("Using", .arr [jsonOfExpression e, jsonOfScript body])]
  | .Def name pat body =>
    .obj [("Def", .arr [jsonOfToken name, jsonOfExpression pat, jsonOfScript body])]

/-- Elementwise serialisation of a script list. -/
def jsonOfScriptList : List Script → List JValue
  | [] => []
  | s :: rest => jsonOfScript s :: jsonOfScriptList rest

end

/-- `ScriptEvaluationError` of `script_interpreter.rs`.  The two binder
variants `WasExpectingAVariable` and `VariableNameNotFound` are referenced by
`bind_statement.rs` (and listed by the spec) although the enum declaration in
this snapshot of `script_interpreter.rs` omits them — in-repo version skew. -/
inductive ScriptEvaluationError where
  | ExpressionNotImplemented
  | StatementNotImplemented
  | ToolNameNotFound
  | ExpressionDoesNotEvaluateToTool
  | MapKeysMustEvaluateToAString
  | IndexMustApplyToAnArrayOrAMap
  | ArrayIndexMustBeANumber
  | MapIndexMustBeAString
  | IndexOutOfBounds
  | ObjectValueNotPresent
  | FieldMustBeIdentifier
  | VariableNameAlreadyInUse
  | WasExpectingAVariable
  | VariableNameNotFound

/-- `to_value` of a `ScriptEvaluationError` (unit variants). -/
def jsonOfEvalError : ScriptEvaluationError → JValue
  | .ExpressionNotImplemented => .str "ExpressionNotImplemented"
  | .StatementNotImplemented => .str "StatementNotImplemented"
  | .ToolNameNotFound => .str "ToolNameNotFound"
  | .ExpressionDoesNotEvaluateToTool => .str "ExpressionDoesNotEvaluateToTool"
  | .MapKeysMustEvaluateToAString => .str "MapKeysMustEvaluateToAString"
  | .IndexMustApplyToAnArrayOrAMap => .str "IndexMustApplyToAnArrayOrAMap"
  | .ArrayIndexMustBeANumber => .str "ArrayIndexMustBeANumber"
  | .MapIndexMustBeAString => .str "MapIndexMustBeAString"
  | .IndexOutOfBounds => .str "IndexOutOfBounds"
  | .ObjectValueNotPresent => .str "ObjectValueNotPresent"
  | .FieldMustBeIdentifier => .str "FieldMustBeIdentifier"
  | .VariableNameAlreadyInUse => .str "VariableNameAlreadyInUse"
  | .WasExpectingAVariable => .str "WasExpectingAVariable"
  | .VariableNameNotFound => .str "VariableNameNotFound"

/-- `generate_statement_error` of `bind_statement.rs`. -/
def generateStatementError (error : ScriptEvaluationError) (script : Script) : JValue :=
  .obj [("error", jsonOfEvalError error), ("failed-statement", jsonOfScript script)]

/-- `generate_expression_error` of `bind_expression.rs`. -/
def generateExpressionError (error : ScriptEvaluationError) (expr : Expression) : JValue :=
  .obj [("error", jsonOfEvalError error), ("failed-expression", jsonOfExpression expr)]

mutual

/-- `generate_failed_bound_expression` of `evaluate_expression.rs` fused with
the serde serialisation of the resulting `FailedBoundExpression`. -/
def jsonOfFailedBoundExpression : BoundExpression → JValue
  | .Value _ tok => .obj [("Value", jsonOfToken tok)]
  | .Array items => .obj [("Array", .arr (jsonOfFailedBoundExpressionList items))]
  | .Tuple items => .obj [("Tuple", .arr (jsonOfFailedBoundExpressionList items))]
  | .Map items => .obj [("Map", .arr (jsonOfFailedBoundExpressionPairs items))]
  | .Tool _ tok => .obj [("Tool", jsonOfToken tok)]
  | .Variable _ tok => .obj [("Variable", jsonOfToken tok)]
  | .Field _ tok => .obj [("Field", jsonOfToken tok)]
  | .Index lhs rhs =>
    .obj [("Index", .arr [jsonOfFailedBoundExpression lhs, jsonOfFailedBoundExpression rhs])]
  | .FieldAccess lhs rhs =>
    .obj [("FieldAccess",
      .arr [jsonOfFailedBoundExpression lhs, jsonOfFailedBoundExpression rhs])]
  | .Apply callee arg =>
    .obj [("Apply", .arr [jsonOfFailedBoundExpression callee, jsonOfFailedBoundExpression arg])]

/-- Elementwise failed-bound-expression serialisation. -/
def jsonOfFailedBoundExpressionList : List BoundExpression → List JValue
  | [] => []
  | e :: rest => jsonOfFailedBoundExpression e :: jsonOfFailedBoundExpressionList rest

/-- Pairwise failed-bound-expression serialisation. -/
def jsonOfFailedBoundExpressionPairs :
    List (BoundExpression × BoundExpression) → List JValue
  | [] => []
  | (a, b) :: rest =>
    .arr [jsonOfFailedBoundExpression a, jsonOfFailedBoundExpression b]
      :: jsonOfFailedBoundExpressionPairs rest

end

/-- `generate_bound_expression_error` of `evaluate_expression.rs`. -/
def generateBoundExpressionError (error : ScriptEvaluationError) (expr : BoundExpression) :
    JValue :=
  .obj [("error", jsonOfEvalError error),
        ("failed-bound-expression", jsonOfFailedBoundExpression expr)]

mutual

/-- `generate_failed_bound_statement` of `evaluate_statement.rs` fused with
the serialisation of the resulting `FailedBoundStatement`. -/
def jsonOfFailedBoundStatement : BoundScript → JValue
  | .AllocateVariables _ body => jsonOfFailedBoundStatement body
  | .RunCommand e => .obj [("RunCommand", jsonOfFailedBoundExpression e)]
  | .Sequence parts => .obj [("Sequence", .arr (jsonOfFailedBoundStatementList parts))]
  | .Let _ _ tok => .obj [("Let", jsonOfToken tok)]
  | .Var _ _ tok => .obj [("Var", jsonOfToken tok)]
  | .Assign _ _ tok => .obj [("Assign", jsonOfToken tok)]
  | .Loop body => .obj [("Loop", jsonOfFailedBoundStatement body)]
  | .While cond _ => .obj [("While", jsonOfFailedBoundExpression cond)]
  | .Using e _ => .obj [("Using", jsonOfFailedBoundExpression e)]
  | .Def name _ _ => .obj [("Def", jsonOfToken name)]

/-- Elementwise failed-bound-statement serialisation. -/
def jsonOfFailedBoundStatementList : List BoundScript → List JValue
  | [] => []
  | s :: rest => jsonOfFailedBoundStatement s :: jsonOfFailedBoundStatementList rest

end

/-- `generate_script_error` of `evaluate_statement.rs`. -/
def generateScriptError (error : ScriptEvaluationError) (script : BoundScript) : JValue :=
  .obj [("error", jsonOfEvalError error),
        ("failed-bound-statement", jsonOfFailedBoundStatement script)]

/-! ## Literal decoding during binding (claim C9)

`gossyp_lang/src/script/bind_expression.rs`, `unquote_string` (lines 13–40)
and `parse_number` (lines 44–52).  A `.unwrap()` of a failed parse is a Rust
panic, modelled as `none`. -/

/-- The result of running a piece of Rust code that can also panic:
`diverge` models a panic (`unwrap` of a failed parse, `unimplemented!`, or an
out-of-bounds `Vec` index). -/
inductive RunRes (α : Type) where
  | diverge
  | err (e : JValue)
  | ok (a : α)

/-- `?`-propagation for `RunRes`. -/
def RunRes.bind : RunRes α → (α → RunRes β) → RunRes β
  | .diverge, _ => .diverge
  | .err e, _ => .err e
  | .ok a, f => f a

/-- Mapping over the success value. -/
def RunRes.map (f : α → β) : RunRes α → RunRes β
  | .diverge => .diverge
  | .err e => .err e
  | .ok a => .ok (f a)

/-- The body of `unquote_string`'s `while index < chars.len()-1` loop; the
in-bounds accesses `chars[index]`/`chars[index+1]` are modelled with a
default that is provably never used for lexer-produced (quoted) tokens. -/
def unquoteLoop (chars : List Char) (index : Nat) (result : String) : String :=
  if index < chars.length - 1 then
    let chr := chars.getD index ' '
    if chr = '\\' then
      let quoted := chars.getD (index + 1) ' '
      let decoded :=
        match quoted with
        | 'n' => '\n'
        | 'r' => '\r'
        | 't' => '\t'
        | q => q
      unquoteLoop chars (index + 2) (result.push decoded)
    else
      unquoteLoop chars (index + 1) (result.push chr)
  else result
termination_by chars.length - index
decreasing_by all_goals omega

/-- `unquote_string`: strip the surrounding quotes and decode `\`-escapes. -/
def unquoteString (string : String) : String :=
  unquoteLoop string.data 1 ""

/-- Value of a list of ASCII decimal digits. -/
def digitsToNat (l : List Char) : Nat :=
  l.foldl (fun acc c => acc * 10 + (c.toNat - 48)) 0

/-- Value of one hex digit. -/
def hexDigitToNat (c : Char) : Nat :=
  if c.isDigit then c.toNat - 48
  else if 'a' ≤ c ∧ c ≤ 'f' then c.toNat - 87
  else c.toNat - 55

/-- Hex digit test. -/
def isHexDigitChar (c : Char) : Bool :=
  c.isDigit || ('a' ≤ c && c ≤ 'f') || ('A' ≤ c && c ≤ 'F')

/-- Value of a list of hex digits. -/
def hexDigitsToNat (l : List Char) : Nat :=
  l.foldl (fun acc c => acc * 16 + hexDigitToNat c) 0

/-- Rust's `i64::from_str`: optional sign, one or more decimal digits, and a
checked-overflow range test (`Err` on overflow, modelled as `none`). -/
def parseI64 (chars : List Char) : Option Int :=
  let signDigits :=
    match chars with
    | '+' :: rest => ((1 : Int), rest)
    | '-' :: rest => ((-1 : Int), rest)
    | l => ((1 : Int), l)
  let sign := signDigits.1
  let digits := signDigits.2
  if digits.isEmpty then none
  else if digits.all Char.isDigit then
    let v : Int := sign * digitsToNat digits
    if i64Min ≤ v ∧ v ≤ i64Max then some v else none
  else none

/-- Rust's `i64::from_str_radix(s, 16)`. -/
def parseI64Radix16 (chars : List Char) : Option Int :=
  let signDigits :=
    match chars with
    | '+' :: rest => ((1 : Int), rest)
    | '-' :: rest => ((-1 : Int), rest)
    | l => ((1 : Int), l)
  let sign := signDigits.1
  let digits := signDigits.2
  if digits.isEmpty then none
  else if digits.all isHexDigitChar then
    let v : Int := sign * hexDigitsToNat digits
    if i64Min ≤ v ∧ v ≤ i64Max then some v else none
  else none

/-- Rust's `f64::from_str` on finite decimal forms, with the exact rational
value (IEEE rounding is not modelled, and neither are the `inf`/`NaN`
spellings — no claim exercises this branch). -/
def parseF64 (chars : List Char) : Option ℚ :=
  let signRest :=
    match chars with
    | '+' :: rest => ((1 : ℚ), rest)
    | '-' :: rest => ((-1 : ℚ), rest)
    | l => ((1 : ℚ), l)
  let sign := signRest.1
  let rest := signRest.2
  let mantExp :=
    match rest.span (fun c => !(c = 'e' || c = 'E')) with
    | (m, []) => (m, none)
    | (m, _ :: e) => (m, some e)
  let mant := mantExp.1
  let intFrac :=
    match mant.span (fun c => !(c = '.')) with
    | (i, []) => (i, [])
    | (i, _ :: f) => (i, f)
  let ip := intFrac.1
  let fp := intFrac.2
  if ip.isEmpty ∧ fp.isEmpty then none
  else if !(ip.all Char.isDigit ∧ fp.all Char.isDigit) then none
  else
    let expVal : Option Int :=
      match mantExp.2 with
      | none => some 0
      | some e =>
        let esign :=
          match e with
          | '+' :: r => ((1 : Int), r)
          | '-' :: r => ((-1 : Int), r)
          | l => ((1 : Int), l)
        if esign.2.isEmpty then none
        else if esign.2.all Char.isDigit then some (esign.1 * digitsToNat esign.2)
        else none
    match expVal with
    | none => none
    | some ex =>
      some (sign * ((digitsToNat ip : ℚ) + (digitsToNat fp : ℚ) / (10 : ℚ) ^ fp.length)
        * (10 : ℚ) ^ ex)

/-- `parse_number` of `bind_expression.rs`: a `.`/`e`/`E` makes it a float,
a `0x` prefix hex, otherwise a decimal `i64`; every branch ends in
`.unwrap()`, so a failed parse is a panic (`none`). -/
def parseNumber (number : String) : Option JValue :=
  if number.data.contains '.' ∨ number.data.contains 'e' ∨ number.data.contains 'E' then
    (parseF64 number.data).map fun q => .num (.f q)
  else
    match number.data with
    | '0' :: 'x' :: rest => (parseI64Radix16 rest).map fun n => .num (.ofInt n)
    | _ => (parseI64 number.data).map fun n => .num (.ofInt n)

/-! ## The binder (claim C7)

`gossyp_lang/src/script/binding_environment.rs` and
`bind_statement.rs`/`bind_expression.rs`.  The implemented binder paths use
only the `ToolBindingEnvironment` produced by
`BindingEnvironment::from_environment` — a variable table (slot cursor plus
name map) over an external environment — so the binding environment is the
state record `BindState`.  `bind_expression` takes the environment by
immutable borrow (it never allocates); `bind_statement` threads it. -/

/-- `BindingError` of `binding_environment.rs`. -/
inductive BindingError where
  | AlreadyInUse

/-- `BindingResult` of `binding_environment.rs`. -/
inductive BindingResult where
  | Variable (slot : Nat)
  | Tool (handle : Handle)
  | Error (msg : String)

/-- The state of a `ToolBindingEnvironment`: the wrapped
`VariableBindingEnvironment` (`next_to_allocate` cursor and name map) plus
the external environment tools are looked up in. -/
structure BindState where
  nextToAllocate : Nat
  bindings : List (String × Nat)
  external : EnvV

/-- `BindingEnvironment::from_environment`. -/
def BindState.fromEnvironment (environment : EnvV) : BindState :=
  { nextToAllocate := 0, bindings := [], external := environment }

/-- `ToolBindingEnvironment::lookup`: the variable table first, then the
external environment. -/
def BindState.lookup (st : BindState) (name : String) : BindingResult :=
  match assocLookup st.bindings name with
  | some v => .Variable v
  | none =>
    match envGet st.external name with
    | .ok tool => .Tool tool
    | .error msg => .Error msg

/-- `VariableBindingEnvironment::allocate_variable` (via `allocate_location`):
refuse a name already in use, else hand out the cursor and advance it. -/
def BindState.allocateVariable (st : BindState) (name : String) :
    Except BindingError (Nat × BindState) :=
  if (assocLookup st.bindings name).isSome then .error .AlreadyInUse
  else
    let allocation := st.nextToAllocate
    .ok (allocation,
      { st with nextToAllocate := allocation + 1,
                bindings := assocInsert st.bindings name allocation })

mutual

/-- `bind_expression` of `bind_expression.rs` (read-only in the binding
environment).  The `FieldAccess` case inlines `bind_field_expression`. -/
def bindExpression : Expression → BindState → RunRes BoundExpression
  | .String s, _ => .ok (.Value (.str (unquoteString s.matched)) s)
  | .Number n, _ =>
    match parseNumber n.matched with
    | some value => .ok (.Value value n)
    | none => .diverge
  | .Array items, st => (bindExpressionList items st).map .Array
  | .Tuple items, st => (bindExpressionList items st).map .Tuple
  | .Map items, st => (bindExpressionPairs items st).map .Map
  | .Identifier id, st =>
    match st.lookup id.matched with
    | .Tool tool => .ok (.Tool tool id)
    | .Variable v => .ok (.Variable v id)
    | .Error _ =>
      .err (generateExpressionError .ExpressionDoesNotEvaluateToTool (.Identifier id))
  | .Index lhs rhs, st =>
    (bindExpression lhs st).bind fun boundTool =>
      (bindExpression rhs st).map fun boundIndexer => .Index boundTool boundIndexer
  | .FieldAccess lhs rhs, st =>
    (bindExpression lhs st).bind fun accessFrom =>
      match rhs with
      | .Identifier tok => .ok (.FieldAccess accessFrom (.Field tok.matched tok))
      | other => .err (generateExpressionError .FieldMustBeIdentifier other)
  | .Apply callee arg, st =>
    (bindExpression callee st).bind fun boundTool =>
      (bindExpression arg st).map fun boundParameters => .Apply boundTool boundParameters

/-- `bind_sequence` for expression lists. -/
def bindExpressionList : List Expression → BindState → RunRes (List BoundExpression)
  | [], _ => .ok []
  | e :: rest, st =>
    (bindExpression e st).bind fun b =>
      (bindExpressionList rest st).map fun bs => b :: bs

/-- `bind_map`'s pair loop. -/
def bindExpressionPairs :
    List (Expression × Expression) → BindState → RunRes (List (BoundExpression × BoundExpression))
  | [], _ => .ok []
  | (lexpr, rexpr) :: rest, st =>
    (bindExpression lexpr st).bind fun lbound =>
      (bindExpression rexpr st).bind fun rbound =>
        (bindExpressionPairs rest st).map fun bs => (lbound, rbound) :: bs

end

mutual

/-- `bind_statement_without_allocation` of `bind_statement.rs`; the
unimplemented statement kinds (`Let`, `Loop`, `While`, `Using`, `Def`) hit
`unimplemented!()`, i.e. diverge. -/
def bindStatementNoAlloc : Script → BindState → RunRes (BoundScript × BindState)
  | .RunCommand e, st => (bindExpression e st).map fun b => (.RunCommand b, st)
  | .Sequence parts, st =>
    (bindSequenceStatements parts st).map fun p => (.Sequence p.1, p.2)
  | .Var name e, st =>
    match st.allocateVariable name.matched with
    | .error .AlreadyInUse =>
      .err (generateStatementError .VariableNameAlreadyInUse (.Var name e))
    | .ok (slot, st') => (bindExpression e st').map fun b => (.Var slot b name, st')
  | .Assign name e, st =>
    match st.lookup name.matched with
    | .Variable v => (bindExpression e st).map fun b => (.Assign v b name, st)
    | .Tool _ => .err (generateStatementError .WasExpectingAVariable (.Assign name e))
    | .Error _ => .err (generateStatementError .VariableNameNotFound (.Assign name e))
  | .Let _ _, _ => .diverge
  | .Loop _, _ => .diverge
  | .While _ _, _ => .diverge
  | .Using _ _, _ => .diverge
  | .Def _ _ _, _ => .diverge

/-- `bind_sequence` of `bind_statement.rs`: fold the statements through the
shared binding environment. -/
def bindSequenceStatements : List Script → BindState → RunRes (List BoundScript × BindState)
  | [], st => .ok ([], st)
  | s :: rest, st =>
    (bindStatementNoAlloc s st).bind fun bst =>
      (bindSequenceStatements rest bst.2).map fun p => (bst.1 :: p.1, p.2)

end

/-- `bind_statement` of `bind_statement.rs` (lines 78–94): sample the slot
count, bind, and wrap in `AllocateVariables(total, …)` exactly when the
count increased. -/
def bindStatement (script : Script) (bindingEnvironment : BindState) :
    RunRes (BoundScript × BindState) :=
  let initialVariableCount := bindingEnvironment.nextToAllocate
  (bindStatementNoAlloc script bindingEnvironment).map fun bst =>
    if initialVariableCount < bst.2.nextToAllocate then
      (.AllocateVariables bst.2.nextToAllocate bst.1, bst.2)
    else bst

/-! ## Slot indices mentioned by a bound tree -/

mutual

/-- All variable slot indices in a bound expression (`Variable` nodes). -/
def exprVarSlots : BoundExpression → List Nat
  | .Value _ _ => []
  | .Tool _ _ => []
  | .Field _ _ => []
  | .Variable s _ => [s]
  | .Array items => exprListVarSlots items
  | .Tuple items => exprListVarSlots items
  | .Map items => exprPairsVarSlots items
  | .Index lhs rhs => exprVarSlots lhs ++ exprVarSlots rhs
  | .FieldAccess lhs rhs => exprVarSlots lhs ++ exprVarSlots rhs
  | .Apply callee arg => exprVarSlots callee ++ exprVarSlots arg

/-- Slots of an expression list. -/
def exprListVarSlots : List BoundExpression → List Nat
  | [] => []
  | e :: rest => exprVarSlots e ++ exprListVarSlots rest

/-- Slots of expression pairs. -/
def exprPairsVarSlots : List (BoundExpression × BoundExpression) → List Nat
  | [] => []
  | (a, b) :: rest => exprVarSlots a ++ exprVarSlots b ++ exprPairsVarSlots rest

end

mutual

/-- All variable slot indices in a bound script: the `Variable` nodes of its
expressions plus the slot fields of `Let`/`Var`/`Assign`. -/
def scriptVarSlots : BoundScript → List Nat
  | .AllocateVariables _ body => scriptVarSlots body
  | .RunCommand e => exprVarSlots e
  | .Sequence parts => seqVarSlots parts
  | .Let s e _ => s :: exprVarSlots e
  | .Var s e _ => s :: exprVarSlots e
  | .Assign s e _ => s :: exprVarSlots e
  | .Loop body => scriptVarSlots body
  | .While cond body => exprVarSlots cond ++ scriptVarSlots body
  | .Using e body => exprVarSlots e ++ scriptVarSlots body
  | .Def _ pat body => exprVarSlots pat ++ scriptVarSlots body

/-- Slots of a script list. -/
def seqVarSlots : List BoundScript → List Nat
  | [] => []
  | s :: rest => scriptVarSlots s ++ seqVarSlots rest

end

/-- Well-formedness of a binding state: every slot in the name map has been
allocated below the cursor. -/
def BindState.WF (st : BindState) : Prop :=
  ∀ p ∈ st.bindings, p.2 < st.nextToAllocate

/-- A successful association lookup is a membership. -/
theorem assocLookup_mem {l : List (String × α)} {k : String} {v : α}
    (h : assocLookup l k = some v) : (k, v) ∈ l := by
  induction l with
  | nil => simp [assocLookup] at h
  | cons kv rest ih =>
    obtain ⟨k', v'⟩ := kv
    by_cases hk : k' = k
    · simp [assocLookup, hk] at h
      simp [hk, h]
    · simp only [assocLookup, if_neg hk] at h
      exact List.mem_cons_of_mem _ (ih h)

/-- Members after an insert come from the old list or are the new pair. -/
theorem assocInsert_mem {l : List (String × α)} {k : String} {v : α} {p : String × α}
    (h : p ∈ assocInsert l k v) : p ∈ l ∨ p = (k, v) := by
  induction l with
  | nil => simpa [assocInsert] using h
  | cons kv rest ih =>
    obtain ⟨k', v'⟩ := kv
    by_cases hk : k' = k
    · simp only [assocInsert, if_pos hk] at h
      rcases List.mem_cons.mp h with h | h
      · exact Or.inr h
      · exact Or.inl (List.mem_cons_of_mem _ h)
    · simp only [assocInsert, if_neg hk] at h
      rcases List.mem_cons.mp h with h | h
      · exact Or.inl (h ▸ List.mem_cons_self _ _)
      · rcases ih h with h | h
        · exact Or.inl (List.mem_cons_of_mem _ h)
        · exact Or.inr h

/-- `allocate_variable` hands out the cursor, advances it by one and keeps
the binding state well-formed. -/
theorem allocateVariable_spec {st : BindState} {name : String} {slot : Nat} {st' : BindState}
    (hwf : st.WF) (h : st.allocateVariable name = .ok (slot, st')) :
    slot = st.nextToAllocate ∧ st'.nextToAllocate = st.nextToAllocate + 1
      ∧ st'.WF ∧ st'.external = st.external := by
  by_cases hc : (assocLookup st.bindings name).isSome
  · simp [BindState.allocateVariable, hc] at h
  · simp only [BindState.allocateVariable, hc, Bool.false_eq_true, if_false, Except.ok.injEq,
      Prod.mk.injEq] at h
    obtain ⟨hslot, hst⟩ := h
    subst hslot
    subst hst
    refine ⟨rfl, rfl, ?_, rfl⟩
    intro p hp
    rcases assocInsert_mem hp with hp | hp
    · exact Nat.lt_succ_of_lt (hwf p hp)
    · simp [hp]

/-- A lookup that answers `Variable` stays below the cursor. -/
theorem lookup_variable_lt {st : BindState} {name : String} {v : Nat}
    (hwf : st.WF) (h : st.lookup name = .Variable v) : v < st.nextToAllocate := by
  unfold BindState.lookup at h
  cases hl : assocLookup st.bindings name with
  | some w =>
    rw [hl] at h
    cases h
    exact hwf _ (assocLookup_mem hl)
  | none =>
    rw [hl] at h
    cases he : envGet st.external name <;> rw [he] at h <;> cases h

/-- Inverting `RunRes.map` at a success. -/
theorem RunRes.map_eq_ok {f : α → β} {r : RunRes α} {b : β} (h : r.map f = .ok b) :
    ∃ a, r = .ok a ∧ b = f a := by
  cases r with
  | diverge => simp [RunRes.map] at h
  | err e => simp [RunRes.map] at h
  | ok a =>
    simp only [RunRes.map, RunRes.ok.injEq] at h
    exact ⟨a, rfl, h.symm⟩

/-- Inverting `RunRes.bind` at a success. -/
theorem RunRes.bind_eq_ok {f : α → RunRes β} {r : RunRes α} {b : β} (h : r.bind f = .ok b) :
    ∃ a, r = .ok a ∧ f a = .ok b := by
  cases r with
  | diverge => simp [RunRes.bind] at h
  | err e => simp [RunRes.bind] at h
  | ok a => exact ⟨a, rfl, h⟩

/-- Every slot a bound expression mentions was already allocated when the
(read-only) expression binder ran: `Variable` nodes come from the name map,
whose entries sit below the cursor. -/
theorem bindExpression_slots :
    (∀ (e : Expression) (st : BindState), st.WF → ∀ b, bindExpression e st = .ok b →
        ∀ s ∈ exprVarSlots b, s < st.nextToAllocate)
    ∧ (∀ (ps : List (Expression × Expression)) (st : BindState), st.WF →
        ∀ bs, bindExpressionPairs ps st = .ok bs →
        ∀ s ∈ exprPairsVarSlots bs, s < st.nextToAllocate)
    ∧ (∀ (l : List Expression) (st : BindState), st.WF →
        ∀ bs, bindExpressionList l st = .ok bs →
        ∀ s ∈ exprListVarSlots bs, s < st.nextToAllocate) := by
  refine bindExpression.mutual_induct
    (fun e st => st.WF → ∀ b, bindExpression e st = .ok b →
      ∀ s ∈ exprVarSlots b, s < st.nextToAllocate)
    (fun ps st => st.WF → ∀ bs, bindExpressionPairs ps st = .ok bs →
      ∀ s ∈ exprPairsVarSlots bs, s < st.nextToAllocate)
    (fun l st => st.WF → ∀ bs, bindExpressionList l st = .ok bs →
      ∀ s ∈ exprListVarSlots bs, s < st.nextToAllocate)
    ?_ ?_ ?_ ?_ ?_ ?_ ?_ ?_ ?_ ?_ ?_ ?_ ?_ ?_ ?_ ?_
  · intro s st _ b hb
    simp only [bindExpression, RunRes.ok.injEq] at hb
    simp [← hb, exprVarSlots]
  · intro n st value hp _ b hb
    simp only [bindExpression, hp, RunRes.ok.injEq] at hb
    simp [← hb, exprVarSlots]
  · intro n st hp _ b hb
    simp [bindExpression, hp] at hb
  · intro items st ih hwf b hb
    simp only [bindExpression] at hb
    obtain ⟨bs, hbs, rfl⟩ := RunRes.map_eq_ok hb
    simpa [exprVarSlots] using ih hwf bs hbs
  · intro items st ih hwf b hb
    simp only [bindExpression] at hb
    obtain ⟨bs, hbs, rfl⟩ := RunRes.map_eq_ok hb
    simpa [exprVarSlots] using ih hwf bs hbs
  · intro items st ih hwf b hb
    simp only [bindExpression] at hb
    obtain ⟨bs, hbs, rfl⟩ := RunRes.map_eq_ok hb
    simpa [exprVarSlots] using ih hwf bs hbs
  · intro id st tool hl _ b hb
    simp only [bindExpression, hl, RunRes.ok.injEq] at hb
    simp [← hb, exprVarSlots]
  · intro id st v hl hwf b hb
    simp only [bindExpression, hl, RunRes.ok.injEq] at hb
    simp only [← hb, exprVarSlots, List.mem_singleton]
    rintro s rfl
    exact lookup_variable_lt hwf hl
  · intro id st msg hl _ b hb
    simp [bindExpression, hl] at hb
  · intro lhs rhs st ihl ihr hwf b hb
    simp only [bindExpression] at hb
    obtain ⟨bl, hbl, hb2⟩ := RunRes.bind_eq_ok hb
    obtain ⟨br, hbr, rfl⟩ := RunRes.map_eq_ok hb2
    simp only [exprVarSlots, List.mem_append]
    rintro s (hs | hs)
    · exact ihl hwf bl hbl s hs
    · exact ihr hwf br hbr s hs
  · intro lhs rhs st ihl hwf b hb
    simp only [bindExpression] at hb
    obtain ⟨bl, hbl, hb2⟩ := RunRes.bind_eq_ok hb
    match rhs, hb2 with
    | .Identifier tok, hb2 =>
      simp only [RunRes.ok.injEq] at hb2
      simp only [← hb2, exprVarSlots, List.mem_append]
      rintro s (hs | hs)
      · exact ihl hwf bl hbl s hs
      · simp [exprVarSlots] at hs
  · intro callee arg st ihl ihr hwf b hb
    simp only [bindExpression] at hb
    obtain ⟨bl, hbl, hb2⟩ := RunRes.bind_eq_ok hb
    obtain ⟨br, hbr, rfl⟩ := RunRes.map_eq_ok hb2
    simp only [exprVarSlots, List.mem_append]
    rintro s (hs | hs)
    · exact ihl hwf bl hbl s hs
    · exact ihr hwf br hbr s hs
  · intro st _ bs hb
    simp only [bindExpressionList, RunRes.ok.injEq] at hb
    simp [← hb, exprListVarSlots]
  · intro e rest st ihe ihrest hwf bs hb
    simp only [bindExpressionList] at hb
    obtain ⟨b1, hb1, hb2⟩ := RunRes.bind_eq_ok hb
    obtain ⟨brest, hbrest, rfl⟩ := RunRes.map_eq_ok hb2
    simp only [exprListVarSlots, List.mem_append]
    rintro s (hs | hs)
    · exact ihe hwf b1 hb1 s hs
    · exact ihrest hwf brest hbrest s hs
  · intro st _ bs hb
    simp only [bindExpressionPairs, RunRes.ok.injEq] at hb
    simp [← hb, exprPairsVarSlots]
  · intro lexpr rexpr rest st ihl ihr ihrest hwf bs hb
    simp only [bindExpressionPairs] at hb
    obtain ⟨bl, hbl, hb2⟩ := RunRes.bind_eq_ok hb
    obtain ⟨br, hbr, hb3⟩ := RunRes.bind_eq_ok hb2
    obtain ⟨brest, hbrest, rfl⟩ := RunRes.map_eq_ok hb3
    simp only [exprPairsVarSlots, List.mem_append]
    rintro s ((hs | hs) | hs)
    · exact ihl hwf bl hbl s hs
    · exact ihr hwf br hbr s hs
    · exact ihrest hwf brest hbrest s hs

/-- Binding a statement keeps the state well-formed, never rewinds the slot
cursor, mentions only allocated slots, and never emits an
`AllocateVariables` wrapper itself (only the `bind_statement` entry point
adds one). -/
theorem bindStatementNoAlloc_slots :
    (∀ (script : Script) (st : BindState), st.WF →
        ∀ b st', bindStatementNoAlloc script st = .ok (b, st') →
          st'.WF ∧ st.nextToAllocate ≤ st'.nextToAllocate
            ∧ (∀ s ∈ scriptVarSlots b, s < st'.nextToAllocate)
            ∧ ∀ count inner, b ≠ .AllocateVariables count inner)
    ∧ (∀ (parts : List Script) (st : BindState), st.WF →
        ∀ bs st', bindSequenceStatements parts st = .ok (bs, st') →
          st'.WF ∧ st.nextToAllocate ≤ st'.nextToAllocate
            ∧ ∀ s ∈ seqVarSlots bs, s < st'.nextToAllocate) := by
  refine bindStatementNoAlloc.mutual_induct
    (fun script st => st.WF → ∀ b st', bindStatementNoAlloc script st = .ok (b, st') →
      st'.WF ∧ st.nextToAllocate ≤ st'.nextToAllocate
        ∧ (∀ s ∈ scriptVarSlots b, s < st'.nextToAllocate)
        ∧ ∀ count inner, b ≠ .AllocateVariables count inner)
    (fun parts st => st.WF → ∀ bs st', bindSequenceStatements parts st = .ok (bs, st') →
      st'.WF ∧ st.nextToAllocate ≤ st'.nextToAllocate
        ∧ ∀ s ∈ seqVarSlots bs, s < st'.nextToAllocate)
    ?_ ?_ ?_ ?_ ?_ ?_ ?_ ?_ ?_ ?_ ?_ ?_ ?_ ?_
  · intro e st hwf b st' hb
    simp only [bindStatementNoAlloc] at hb
    obtain ⟨be, hbe, heq⟩ := RunRes.map_eq_ok hb
    obtain ⟨rfl, rfl⟩ := Prod.mk.inj heq
    exact ⟨hwf, Nat.le_refl _, by
      simpa [scriptVarSlots] using bindExpression_slots.1 e _ hwf be hbe, by simp⟩
  · intro parts st ih hwf b st' hb
    simp only [bindStatementNoAlloc] at hb
    obtain ⟨p, hp, heq⟩ := RunRes.map_eq_ok hb
    obtain ⟨rfl, rfl⟩ := Prod.mk.inj heq
    obtain ⟨hwf', hle, hs⟩ := ih hwf p.1 p.2 (by rw [hp])
    exact ⟨hwf', hle, by simpa [scriptVarSlots] using hs, by simp⟩
  · intro name e st halloc _ b st' hb
    simp [bindStatementNoAlloc, halloc] at hb
  · intro name e st slot st1 halloc hwf b st' hb
    simp only [bindStatementNoAlloc, halloc] at hb
    obtain ⟨be, hbe, heq⟩ := RunRes.map_eq_ok hb
    obtain ⟨rfl, rfl⟩ := Prod.mk.inj heq
    obtain ⟨hslot, hnext, hwf1, _⟩ := allocateVariable_spec hwf halloc
    refine ⟨hwf1, by omega, ?_, by simp⟩
    intro s hs
    simp only [scriptVarSlots, List.mem_cons] at hs
    rcases hs with rfl | hs
    · omega
    · exact bindExpression_slots.1 e _ hwf1 be hbe s hs
  · intro name e st v hl hwf b st' hb
    simp only [bindStatementNoAlloc, hl] at hb
    obtain ⟨be, hbe, heq⟩ := RunRes.map_eq_ok hb
    obtain ⟨rfl, rfl⟩ := Prod.mk.inj heq
    refine ⟨hwf, Nat.le_refl _, ?_, by simp⟩
    intro s hs
    simp only [scriptVarSlots, List.mem_cons] at hs
    rcases hs with rfl | hs
    · exact lookup_variable_lt hwf hl
    · exact bindExpression_slots.1 e _ hwf be hbe s hs
  · intro name e st handle hl _ b st' hb
    simp [bindStatementNoAlloc, hl] at hb
  · intro name e st msg hl _ b st' hb
    simp [bindStatementNoAlloc, hl] at hb
  · intro name expr st _ b st' hb
    simp [bindStatementNoAlloc] at hb
  · intro body st _ b st' hb
    simp [bindStatementNoAlloc] at hb
  · intro cond body st _ b st' hb
    simp [bindStatementNoAlloc] at hb
  · intro expr body st _ b st' hb
    simp [bindStatementNoAlloc] at hb
  · intro name pattern body st _ b st' hb
    simp [bindStatementNoAlloc] at hb
  · intro st hwf bs st' hb
    simp only [bindSequenceStatements, RunRes.ok.injEq, Prod.mk.injEq] at hb
    obtain ⟨rfl, rfl⟩ := hb
    exact ⟨hwf, Nat.le_refl _, by simp [seqVarSlots]⟩
  · intro s rest st ihs ihrest hwf bs st' hb
    simp only [bindSequenceStatements] at hb
    obtain ⟨bst, hbst, hb2⟩ := RunRes.bind_eq_ok hb
    obtain ⟨p, hp, heq⟩ := RunRes.map_eq_ok hb2
    obtain ⟨rfl, rfl⟩ := Prod.mk.inj heq
    obtain ⟨hwf1, hle1, hs1, _⟩ := ihs hwf bst.1 bst.2 (by rw [hbst])
    obtain ⟨hwf2, hle2, hs2⟩ := ihrest bst hwf1 p.1 p.2 (by rw [hp])
    refine ⟨hwf2, Nat.le_trans hle1 hle2, ?_⟩
    intro x hx
    simp only [seqVarSlots, List.mem_append] at hx
    rcases hx with hx | hx
    · exact Nat.lt_of_lt_of_le (hs1 x hx) hle2
    · exact hs2 x hx

/-- C7.  For every script the binder accepts (binding from a fresh binding
environment over any external environment): if the bound tree has an
outermost `AllocateVariables(N, …)` wrapper then `N` is the binding
environment's total slot count after binding and every variable slot
mentioned in the tree (in particular every `Variable(s)` node) satisfies
`s < N`; if there is no wrapper, the tree mentions no variable slots at all;
and the wrapper is present exactly when binding increased the slot count. -/
theorem c7_binder_slot_allocation (script : Script) (ext : EnvV) (b : BoundScript)
    (st' : BindState)
    (h : bindStatement script (BindState.fromEnvironment ext) = .ok (b, st')) :
    (∀ count inner, b = .AllocateVariables count inner →
        count = st'.nextToAllocate ∧ ∀ s ∈ scriptVarSlots b, s < count)
    ∧ ((∀ count inner, b ≠ .AllocateVariables count inner) → scriptVarSlots b = [])
    ∧ ((∃ count inner, b = .AllocateVariables count inner) ↔ 0 < st'.nextToAllocate) := by
  have hwf0 : (BindState.fromEnvironment ext).WF := by
    intro p hp
    simp [BindState.fromEnvironment] at hp
  simp only [bindStatement] at h
  obtain ⟨bst, hbst, heq⟩ := RunRes.map_eq_ok h
  obtain ⟨hwf', hle, hslots, hnoalloc⟩ :=
    bindStatementNoAlloc_slots.1 script _ hwf0 bst.1 bst.2 (by rw [hbst])
  simp only [BindState.fromEnvironment] at heq
  by_cases hpos : 0 < bst.2.nextToAllocate
  · rw [if_pos hpos] at heq
    obtain ⟨rfl, rfl⟩ := Prod.mk.inj heq
    refine ⟨?_, ?_, ?_⟩
    · intro count inner hEq
      cases hEq
      exact ⟨rfl, by simpa [scriptVarSlots] using hslots⟩
    · intro hno
      exact absurd rfl (hno _ _)
    · exact ⟨fun _ => hpos, fun _ => ⟨_, _, rfl⟩⟩
  · rw [if_neg hpos] at heq
    obtain ⟨rfl, rfl⟩ := Prod.mk.inj heq
    have hzero : bst.2.nextToAllocate = 0 := by omega
    have hempty : scriptVarSlots bst.1 = [] := by
      cases hsl : scriptVarSlots bst.1 with
      | nil => rfl
      | cons x xs =>
        have := hslots x (by rw [hsl]; exact List.mem_cons_self _ _)
        omega
    refine ⟨?_, fun _ => hempty, ?_⟩
    · intro count inner hEq
      exact absurd hEq (hnoalloc count inner)
    · constructor
      · rintro ⟨count, inner, hEq⟩
        exact absurd hEq (hnoalloc count inner)
      · intro hlt
        omega

/-- The token `x` of the witness script `var x = 1`. -/
def tokX : ScriptToken := ⟨.Identifier, 4, 5, "x"⟩

/-- The token `1` of the witness script. -/
def tokOne : ScriptToken := ⟨.Number, 8, 9, "1"⟩

/-- The witness script `var x = 1`. -/
def varXone : Script := .Var tokX (.Number tokOne)

/-- The bound `var` statement the binder produces for `var x = 1`. -/
def boundVarX : BoundScript := .Var 0 (.Value (.num (.u 1)) tokOne) tokX

/-- The binding state after binding `var x = 1` from a fresh environment. -/
def stX1 : BindState := { nextToAllocate := 1, bindings := [("x", 0)], external := .empty }

/-- C7, concrete run: binding `var x = 1` from a fresh binding environment
wraps the statement in `AllocateVariables 1`, the count is the final slot
count, and every mentioned slot is below it. -/
theorem c7_binder_slot_allocation_witness :
    bindStatement varXone (BindState.fromEnvironment .empty)
      = .ok (.AllocateVariables 1 boundVarX, stX1)
    ∧ 1 = stX1.nextToAllocate
    ∧ (∀ s ∈ scriptVarSlots (.AllocateVariables 1 boundVarX), s < 1)
    ∧ ((∃ count inner, (BoundScript.AllocateVariables 1 boundVarX)
          = .AllocateVariables count inner) ↔ 0 < stX1.nextToAllocate) := by
  have hnum : parseNumber tokOne.matched = some (.num (.u 1)) := rfl
  have halloc : (BindState.fromEnvironment EnvV.empty).allocateVariable tokX.matched
      = .ok (0, stX1) := rfl
  have hexpr : bindExpression (.Number tokOne) stX1 = .ok (.Value (.num (.u 1)) tokOne) := by
    simp [bindExpression, hnum]
  have hstmt : bindStatementNoAlloc varXone (BindState.fromEnvironment .empty)
      = .ok (boundVarX, stX1) := by
    simp [varXone, bindStatementNoAlloc, halloc, hexpr, RunRes.map, boundVarX]
  have hstmt2 : bindStatementNoAlloc varXone
      { nextToAllocate := 0, bindings := [], external := EnvV.empty } = .ok (boundVarX, stX1) :=
    hstmt
  have hbind : bindStatement varXone (BindState.fromEnvironment .empty)
      = .ok (.AllocateVariables 1 boundVarX, stX1) := by
    simp [bindStatement, BindState.fromEnvironment, hstmt2, RunRes.map, stX1]
  obtain ⟨h1, _, h3⟩ := c7_binder_slot_allocation varXone .empty _ _ hbind
  obtain ⟨hc, hs⟩ := h1 1 boundVarX rfl
  exact ⟨hbind, hc, hs, h3⟩

/-- Modelled from the spec: the script lexer's `Number` token rule lives in
`syntax_lexer.json`, which is absent from the source tree; per spec §6
("Numbers accept decimal, decimal with exponent, leading-dot decimals, and
`0x` hex") a non-empty run of ASCII decimal digits is a well-formed `Number`
lexeme. -/
def isDecimalIntegerLexeme (s : String) : Bool :=
  !s.data.isEmpty && s.data.all Char.isDigit

/-- The decimal literal `9223372036854775808` = 2^63, one past `i64::MAX`,
as a `Number` token. -/
def bigTok : ScriptToken := ⟨.Number, 0, 19, "9223372036854775808"⟩

/-- C9.  The decimal literal `9223372036854775808` is a well-formed `Number`
lexeme, yet `parse_number` falls into the plain-`i64` branch, the parse
overflows, and the `.unwrap()` panics — modelled by `none`/`diverge`: number
decoding during binding is not total over lexable inputs. -/
theorem c9_number_literal_decoding_panics :
    isDecimalIntegerLexeme "9223372036854775808" = true
    ∧ parseNumber "9223372036854775808" = none
    ∧ bindExpression (.Number bigTok) (BindState.fromEnvironment .empty) = .diverge := by
  have hp : parseNumber bigTok.matched = none := rfl
  exact ⟨rfl, hp, by simp [bindExpression, hp]⟩

/-! ## The evaluator (claims C8 and C10)

`gossyp_lang/src/script/script_interpreter.rs` (the activation record) and
`evaluate_expression.rs`/`evaluate_statement.rs`. -/

/-- `ScriptExecutionEnvironment::allocate_variables`: push `Null` until the
record holds at least `numVariables` slots. -/
def allocateVariables (ee : List JValue) (numVariables : Nat) : List JValue :=
  ee ++ List.replicate (numVariables - ee.length) .null

/-- `ScriptExecutionEnvironment::set_variable`, lines 128–136: writing to a
slot that has not been allocated is (per the source comment) a no-op. -/
def setVariable (ee : List JValue) (pos : Nat) (value : JValue) : List JValue :=
  if pos < ee.length then ee.set pos value else ee

/-- `ScriptExecutionEnvironment::get_variable`: a plain `Vec` index, which
panics (`none`) out of bounds. -/
def getVariable (ee : List JValue) (pos : Nat) : Option JValue :=
  ee.get? pos

/-- `call_tool` on the handle a bound `Tool` node carries.  A stored tool is
invoked in the fresh dynamic environment (the tool environment's final state
is discarded, as in the source); invoking a synthesised meta handle through
the evaluator is exercised by no claim and not modelled. -/
def callToolHandle (handle : Handle) (parameters : JValue) (environment : EnvV) :
    RunRes JValue :=
  match handle with
  | .stored t =>
    match (callTool t parameters environment).1 with
    | .ok v => .ok v
    | .error e => .err e
  | _ => .err (.str "invoking a synthesised meta handle through the evaluator is not modelled")

/-- `evaluate_expression_to_tool`. -/
def evaluateExpressionToTool (expression : BoundExpression) : Except JValue Handle :=
  match expression with
  | .Tool tool _ => .ok tool
  | other =>
    .error (generateBoundExpressionError .ExpressionDoesNotEvaluateToTool other)

mutual

/-- `evaluate_expression` of `evaluate_expression.rs`.  `Field` and
`FieldAccess` hit `unimplemented!()`; a `Variable` read of an unallocated
slot is a `Vec` index panic. -/
def evaluateExpression (expression : BoundExpression) (environment : EnvV)
    (executionEnvironment : List JValue) : RunRes JValue :=
  match expression with
  | .Value value _ => .ok value
  | .Tool tool _ => callToolHandle tool .null environment
  | .Variable varNum _ =>
    match getVariable executionEnvironment varNum with
    | some v => .ok v
    | none => .diverge
  | .Field _ _ => .diverge
  | .Array values => (evaluateArrayItems values environment executionEnvironment).map .arr
  | .Tuple values => (evaluateArrayItems values environment executionEnvironment).map .arr
  | .Map values =>
    (evaluateMapPairs values environment executionEnvironment []).map .obj
  | .FieldAccess _ _ => .diverge
  | .Apply callee arg =>
    (evaluateExpression arg environment executionEnvironment).bind fun parametersValue =>
      match evaluateExpressionToTool callee with
      | .ok appliesTo => callToolHandle appliesTo parametersValue environment
      | .error e => .err e
  | .Index lhs rhs => evaluateIndex lhs rhs environment executionEnvironment
termination_by 2 * sizeOf expression

/-- `evaluate_index`, lines 142–192 of `evaluate_expression.rs`. -/
def evaluateIndex (lhs rhs : BoundExpression) (environment : EnvV)
    (executionEnvironment : List JValue) : RunRes JValue :=
  (evaluateExpression lhs environment executionEnvironment).bind fun lhsRes =>
    (evaluateExpression rhs environment executionEnvironment).bind fun rhsRes =>
      match lhsRes with
      | .arr array =>
        match rhsRes with
        | .num index =>
          match index.asU64 with
          | some i =>
            match array.get? i with
            | some indexedValue => .ok indexedValue
            | none => .err (generateBoundExpressionError .IndexOutOfBounds rhs)
          | none => .err (generateBoundExpressionError .IndexOutOfBounds rhs)
        | _ => .err (generateBoundExpressionError .ArrayIndexMustBeANumber rhs)
      | .str string =>
        match rhsRes with
        | .num index =>
          match index.asU64 with
          | some i =>
            match string.data.get? i with
            | some indexedValue => .ok (.str (String.singleton indexedValue))
            | none => .err (generateBoundExpressionError .IndexOutOfBounds rhs)
          | none => .err (generateBoundExpressionError .IndexOutOfBounds rhs)
        | _ => .err (generateBoundExpressionError .ArrayIndexMustBeANumber rhs)
      | .obj map =>
        match rhsRes with
        | .str index =>
          match assocLookup map index with
          | some refValue => .ok refValue
          | none => .err (generateBoundExpressionError .ObjectValueNotPresent rhs)
        | _ => .err (generateBoundExpressionError .MapIndexMustBeAString rhs)
      | _ => .err (generateBoundExpressionError .IndexMustApplyToAnArrayOrAMap lhs)
termination_by 2 * (sizeOf lhs + sizeOf rhs) + 1

/-- `evaluate_array`: elementwise, fail-fast. -/
def evaluateArrayItems (exprs : List BoundExpression) (environment : EnvV)
    (executionEnvironment : List JValue) : RunRes (List JValue) :=
  match exprs with
  | [] => .ok []
  | e :: rest =>
    (evaluateExpression e environment executionEnvironment).bind fun v =>
      (evaluateArrayItems rest environment executionEnvironment).map fun vs => v :: vs
termination_by 2 * sizeOf exprs

/-- `evaluate_map`: keys must evaluate to strings; entries are inserted in
order, later duplicates overwriting earlier ones. -/
def evaluateMapPairs (exprs : List (BoundExpression × BoundExpression)) (environment : EnvV)
    (executionEnvironment : List JValue) (result : List (String × JValue)) :
    RunRes (List (String × JValue)) :=
  match exprs with
  | [] => .ok result
  | (keyExpr, valueExpr) :: rest =>
    match evaluateExpression keyExpr environment executionEnvironment with
    | .ok (.str key) =>
      (evaluateExpression valueExpr environment executionEnvironment).bind fun value =>
        evaluateMapPairs rest environment executionEnvironment (assocInsert result key value)
    | .ok _ => .err (generateBoundExpressionError .MapKeysMustEvaluateToAString keyExpr)
    | .err erm => .err erm
    | .diverge => .diverge
termination_by 2 * sizeOf exprs

end

/-- `evaluate_assignment` of `evaluate_statement.rs` (lines 89–94): evaluate
the expression, write the slot, and return the evaluated value. -/
def evaluateAssignment (variableIndex : Nat) (expr : BoundExpression) (environment : EnvV)
    (executionEnvironment : List JValue) : RunRes JValue × List JValue :=
  match evaluateExpression expr environment executionEnvironment with
  | .ok expressionValue =>
    (.ok expressionValue, setVariable executionEnvironment variableIndex expressionValue)
  | .err e => (.err e, executionEnvironment)
  | .diverge => (.diverge, executionEnvironment)

mutual

/-- `evaluate_statement` of `evaluate_statement.rs`; the unimplemented
statement kinds report `StatementNotImplemented`. -/
def evaluateStatement (statement : BoundScript) (environment : EnvV)
    (executionEnvironment : List JValue) : RunRes JValue × List JValue :=
  match statement with
  | .AllocateVariables num continuation =>
    evaluateStatement continuation environment (allocateVariables executionEnvironment num)
  | .RunCommand expr => (evaluateExpression expr environment executionEnvironment,
      executionEnvironment)
  | .Sequence steps => evaluateSequenceSteps steps environment executionEnvironment []
  | .Var index expr _ => evaluateAssignment index expr environment executionEnvironment
  | .Assign index expr _ => evaluateAssignment index expr environment executionEnvironment
  | other => (.err (generateScriptError .StatementNotImplemented other), executionEnvironment)

/-- `evaluate_sequence`: collect per-statement results, fail fast, return the
array of results. -/
def evaluateSequenceSteps (sequence : List BoundScript) (environment : EnvV)
    (executionEnvironment : List JValue) (result : List JValue) :
    RunRes JValue × List JValue :=
  match sequence with
  | [] => (.ok (.arr result.reverse), executionEnvironment)
  | statement :: rest =>
    match evaluateStatement statement environment executionEnvironment with
    | (.ok nextResult, ee') => evaluateSequenceSteps rest environment ee' (nextResult :: result)
    | (.err e, ee') => (.err e, ee')
    | (.diverge, ee') => (.diverge, ee')

end

/-- C8.  Indexing an array or a string by a number: when the number has a
non-negative integer (`as_u64`) representation within bounds, the result is
the selected element (for a string, the i-th code point as a one-character
string); any other number — negative, fractional, or out of bounds — gives
an `IndexOutOfBounds` error. -/
theorem c8_index_bounds (lhs rhs : BoundExpression) (environment : EnvV) (ee : List JValue) :
    (∀ xs n, evaluateExpression lhs environment ee = .ok (.arr xs) →
        evaluateExpression rhs environment ee = .ok (.num n) →
        (∀ i, n.asU64 = some i →
            (∀ h : i < xs.length,
              evaluateIndex lhs rhs environment ee = .ok (xs.get ⟨i, h⟩))
            ∧ (xs.length ≤ i → evaluateIndex lhs rhs environment ee
                = .err (generateBoundExpressionError .IndexOutOfBounds rhs)))
        ∧ (n.asU64 = none → evaluateIndex lhs rhs environment ee
            = .err (generateBoundExpressionError .IndexOutOfBounds rhs)))
    ∧ (∀ s n, evaluateExpression lhs environment ee = .ok (.str s) →
        evaluateExpression rhs environment ee = .ok (.num n) →
        (∀ i, n.asU64 = some i →
            (∀ h : i < s.data.length,
              evaluateIndex lhs rhs environment ee
                = .ok (.str (String.singleton (s.data.get ⟨i, h⟩))))
            ∧ (s.data.length ≤ i → evaluateIndex lhs rhs environment ee
                = .err (generateBoundExpressionError .IndexOutOfBounds rhs)))
        ∧ (n.asU64 = none → evaluateIndex lhs rhs environment ee
            = .err (generateBoundExpressionError .IndexOutOfBounds rhs))) := by
  constructor
  · intro xs n h1 h2
    constructor
    · intro i hi
      constructor
      · intro hlt
        have hget : xs[i]? = some xs[i] := List.getElem?_eq_getElem hlt
        simp [evaluateIndex, h1, h2, RunRes.bind, hi, hget]
      · intro hge
        have hget : xs[i]? = none := List.getElem?_eq_none hge
        simp [evaluateIndex, h1, h2, RunRes.bind, hi, hget]
    · intro hnone
      simp [evaluateIndex, h1, h2, RunRes.bind, hnone]
  · intro s n h1 h2
    constructor
    · intro i hi
      constructor
      · intro hlt
        have hget : s.data[i]? = some s.data[i] := List.getElem?_eq_getElem hlt
        simp [evaluateIndex, h1, h2, RunRes.bind, hi, hget]
      · intro hge
        have hget : s.data[i]? = none := List.getElem?_eq_none hge
        simp [evaluateIndex, h1, h2, RunRes.bind, hi, hget]
    · intro hnone
      simp [evaluateIndex, h1, h2, RunRes.bind, hnone]

/-- Token carrier for the C8 witness literals. -/
def tokC8 : ScriptToken := ⟨.Number, 0, 0, ""⟩

/-- `[1,2,3]` as a bound literal. -/
def arr123Expr : BoundExpression :=
  .Value (.arr [.num (.u 1), .num (.u 2), .num (.u 3)]) tokC8

/-- `-1` as a bound literal. -/
def negOneExpr : BoundExpression := .Value (.num (.i (-1))) tokC8

/-- `"abc"` as a bound literal. -/
def abcExpr : BoundExpression := .Value (.str "abc") tokC8

/-- `3` as a bound literal. -/
def threeExpr : BoundExpression := .Value (.num (.u 3)) tokC8

/-- C8, concrete runs: `[1,2,3][-1]` and `"abc"[3]` both produce
`IndexOutOfBounds` (no wrap-around). -/
theorem c8_index_bounds_witness :
    evaluateExpression arr123Expr .empty []
      = .ok (.arr [.num (.u 1), .num (.u 2), .num (.u 3)])
    ∧ evaluateExpression negOneExpr .empty [] = .ok (.num (.i (-1)))
    ∧ (JNum.i (-1)).asU64 = none
    ∧ evaluateIndex arr123Expr negOneExpr .empty []
        = .err (generateBoundExpressionError .IndexOutOfBounds negOneExpr)
    ∧ evaluateExpression abcExpr .empty [] = .ok (.str "abc")
    ∧ evaluateExpression threeExpr .empty [] = .ok (.num (.u 3))
    ∧ (JNum.u 3).asU64 = some 3
    ∧ evaluateIndex abcExpr threeExpr .empty []
        = .err (generateBoundExpressionError .IndexOutOfBounds threeExpr) := by
  have h1 : evaluateExpression arr123Expr .empty []
      = .ok (.arr [.num (.u 1), .num (.u 2), .num (.u 3)]) := by
    simp [arr123Expr, evaluateExpression]
  have h2 : evaluateExpression negOneExpr .empty [] = .ok (.num (.i (-1))) := by
    simp [negOneExpr, evaluateExpression]
  have h3 : evaluateExpression abcExpr .empty [] = .ok (.str "abc") := by
    simp [abcExpr, evaluateExpression]
  have h4 : evaluateExpression threeExpr .empty [] = .ok (.num (.u 3)) := by
    simp [threeExpr, evaluateExpression]
  refine ⟨h1, h2, rfl, ?_, h3, h4, rfl, ?_⟩
  · exact ((c8_index_bounds arr123Expr negOneExpr .empty []).1 _ _ h1 h2).2 rfl
  · exact (((c8_index_bounds abcExpr threeExpr .empty []).2 _ _ h3 h4).1 3 rfl).2 (by decide)

/-- C10.  Writing to a slot at or beyond the activation record's length is a
silent no-op, and a bound `Var`/`Assign` statement writing to such a slot
still returns the evaluated value as the statement result, with the record
unchanged. -/
theorem c10_out_of_bounds_write_discarded (ee : List JValue) (p : Nat) (v : JValue)
    (expr : BoundExpression) (environment : EnvV) (val : JValue) (tok : ScriptToken)
    (hp : ee.length ≤ p)
    (he : evaluateExpression expr environment ee = .ok val) :
    setVariable ee p v = ee
    ∧ evaluateStatement (.Var p expr tok) environment ee = (.ok val, ee)
    ∧ evaluateStatement (.Assign p expr tok) environment ee = (.ok val, ee) := by
  have hset : ∀ w : JValue, setVariable ee p w = ee := by
    intro w
    simp [setVariable, Nat.not_lt.mpr hp]
  exact ⟨hset v,
    by simp [evaluateStatement, evaluateAssignment, he, hset],
    by simp [evaluateStatement, evaluateAssignment, he, hset]⟩

/-- Token carrier for the C10 witness. -/
def tokC10 : ScriptToken := ⟨.Identifier, 0, 1, "x"⟩

/-- C10, concrete run: on an empty activation record, slot 0 is unallocated;
the write is discarded and the statements still return the value. -/
theorem c10_out_of_bounds_write_discarded_witness :
    ([] : List JValue).length ≤ 0
    ∧ evaluateExpression (.Value .null tokC10) .empty [] = .ok .null
    ∧ (setVariable [] 0 (.bool true) = []
        ∧ evaluateStatement (.Var 0 (.Value .null tokC10) tokC10) .empty [] = (.ok .null, [])
        ∧ evaluateStatement (.Assign 0 (.Value .null tokC10) tokC10) .empty []
            = (.ok .null, [])) := by
  have he : evaluateExpression (.Value .null tokC10) .empty [] = .ok .null := by
    simp [evaluateExpression]
  exact ⟨Nat.le_refl 0, he,
    c10_out_of_bounds_write_discarded [] 0 (.bool true) _ .empty .null tokC10
      (Nat.le_refl 0) he⟩

end Gossyp
